import Mathlib

/-!
Verification of the answer-extraction engine of `evalscope/utils/utils.py`
(class `ResponseParser`): `parse_first_option`, `parse_first_option_with_choices`,
`parse_first_capital`, `parse_last_capital`, `parse_bracketed_answer` and the
helper `process_options`.

Texts and labels are modelled as `List Char`.  The Python regular expressions
used by the cascade are shallowly embedded by an explicit backtracking matcher
(`mrun`/`reSearch`) that mirrors the relevant fragment of Python `re` semantics
with `re.DOTALL`: ordered alternation (leftmost alternative preferred), greedy
and lazy repetition of single-character predicates (the only repetitions the
cascade uses), one-shot capture groups, the `^` anchor (start of string, no
`re.MULTILINE`) and the `$` anchor (end of string or just before a final
newline), and `re.search`'s leftmost-match rule (earliest start position that
admits any match wins).
-/

/-- Characters accepted by Python's `str.isspace` (equivalently by `\s` in a
`str` pattern, both are `Py_UNICODE_ISSPACE`): the ASCII whitespace and the
Unicode space/bidi-separator characters. -/
def pySpaceChars : List Char :=
  ['\t', '\n', '\x0b', '\x0c', '\r', '\x1c', '\x1d', '\x1e', '\x1f', ' ',
   '\x85', '\xa0', '\u1680', '\u2000', '\u2001', '\u2002', '\u2003', '\u2004',
   '\u2005', '\u2006', '\u2007', '\u2008', '\u2009', '\u200a', '\u2028',
   '\u2029', '\u202f', '\u205f', '\u3000']

/-- Model of Python's whitespace test (`str.isspace` on a single character,
and of the regex class `\s`). -/
def pyIsSpace (c : Char) : Bool := pySpaceChars.contains c

/-- Code-point ranges (inclusive) of the characters for which Python's
`str.isupper` returns true on a one-character string, generated from the
Unicode 14.0.0 database used by CPython 3.11 (`Py_UNICODE_ISUPPER`): the
uppercase letters together with the Other_Uppercase characters (circled
letters, Roman numerals, mathematical alphanumerics, ...). -/
def pyUpperRanges : List (Nat × Nat) :=
  [(0x41, 0x5A), (0xC0, 0xD6), (0xD8, 0xDE), (0x100, 0x100), (0x102, 0x102), (0x104, 0x104),
   (0x106, 0x106), (0x108, 0x108), (0x10A, 0x10A), (0x10C, 0x10C), (0x10E, 0x10E), (0x110, 0x110),
   (0x112, 0x112), (0x114, 0x114), (0x116, 0x116), (0x118, 0x118), (0x11A, 0x11A), (0x11C, 0x11C),
   (0x11E, 0x11E), (0x120, 0x120), (0x122, 0x122), (0x124, 0x124), (0x126, 0x126), (0x128, 0x128),
   (0x12A, 0x12A), (0x12C, 0x12C), (0x12E, 0x12E), (0x130, 0x130), (0x132, 0x132), (0x134, 0x134),
   (0x136, 0x136), (0x139, 0x139), (0x13B, 0x13B), (0x13D, 0x13D), (0x13F, 0x13F), (0x141, 0x141),
   (0x143, 0x143), (0x145, 0x145), (0x147, 0x147), (0x14A, 0x14A), (0x14C, 0x14C), (0x14E, 0x14E),
   (0x150, 0x150), (0x152, 0x152), (0x154, 0x154), (0x156, 0x156), (0x158, 0x158), (0x15A, 0x15A),
   (0x15C, 0x15C), (0x15E, 0x15E), (0x160, 0x160), (0x162, 0x162), (0x164, 0x164), (0x166, 0x166),
   (0x168, 0x168), (0x16A, 0x16A), (0x16C, 0x16C), (0x16E, 0x16E), (0x170, 0x170), (0x172, 0x172),
   (0x174, 0x174), (0x176, 0x176), (0x178, 0x179), (0x17B, 0x17B), (0x17D, 0x17D), (0x181, 0x182),
   (0x184, 0x184), (0x186, 0x187), (0x189, 0x18B), (0x18E, 0x191), (0x193, 0x194), (0x196, 0x198),
   (0x19C, 0x19D), (0x19F, 0x1A0), (0x1A2, 0x1A2), (0x1A4, 0x1A4), (0x1A6, 0x1A7), (0x1A9, 0x1A9),
   (0x1AC, 0x1AC), (0x1AE, 0x1AF), (0x1B1, 0x1B3), (0x1B5, 0x1B5), (0x1B7, 0x1B8), (0x1BC, 0x1BC),
   (0x1C4, 0x1C4), (0x1C7, 0x1C7), (0x1CA, 0x1CA), (0x1CD, 0x1CD), (0x1CF, 0x1CF), (0x1D1, 0x1D1),
   (0x1D3, 0x1D3), (0x1D5, 0x1D5), (0x1D7, 0x1D7), (0x1D9, 0x1D9), (0x1DB, 0x1DB), (0x1DE, 0x1DE),
   (0x1E0, 0x1E0), (0x1E2, 0x1E2), (0x1E4, 0x1E4), (0x1E6, 0x1E6), (0x1E8, 0x1E8), (0x1EA, 0x1EA),
   (0x1EC, 0x1EC), (0x1EE, 0x1EE), (0x1F1, 0x1F1), (0x1F4, 0x1F4), (0x1F6, 0x1F8), (0x1FA, 0x1FA),
   (0x1FC, 0x1FC), (0x1FE, 0x1FE), (0x200, 0x200), (0x202, 0x202), (0x204, 0x204), (0x206, 0x206),
   (0x208, 0x208), (0x20A, 0x20A), (0x20C, 0x20C), (0x20E, 0x20E), (0x210, 0x210), (0x212, 0x212),
   (0x214, 0x214), (0x216, 0x216), (0x218, 0x218), (0x21A, 0x21A), (0x21C, 0x21C), (0x21E, 0x21E),
   (0x220, 0x220), (0x222, 0x222), (0x224, 0x224), (0x226, 0x226), (0x228, 0x228), (0x22A, 0x22A),
   (0x22C, 0x22C), (0x22E, 0x22E), (0x230, 0x230), (0x232, 0x232), (0x23A, 0x23B), (0x23D, 0x23E),
   (0x241, 0x241), (0x243, 0x246), (0x248, 0x248), (0x24A, 0x24A), (0x24C, 0x24C), (0x24E, 0x24E),
   (0x370, 0x370), (0x372, 0x372), (0x376, 0x376), (0x37F, 0x37F), (0x386, 0x386), (0x388, 0x38A),
   (0x38C, 0x38C), (0x38E, 0x38F), (0x391, 0x3A1), (0x3A3, 0x3AB), (0x3CF, 0x3CF), (0x3D2, 0x3D4),
   (0x3D8, 0x3D8), (0x3DA, 0x3DA), (0x3DC, 0x3DC), (0x3DE, 0x3DE), (0x3E0, 0x3E0), (0x3E2, 0x3E2),
   (0x3E4, 0x3E4), (0x3E6, 0x3E6), (0x3E8, 0x3E8), (0x3EA, 0x3EA), (0x3EC, 0x3EC), (0x3EE, 0x3EE),
   (0x3F4, 0x3F4), (0x3F7, 0x3F7), (0x3F9, 0x3FA), (0x3FD, 0x42F), (0x460, 0x460), (0x462, 0x462),
   (0x464, 0x464), (0x466, 0x466), (0x468, 0x468), (0x46A, 0x46A), (0x46C, 0x46C), (0x46E, 0x46E),
   (0x470, 0x470), (0x472, 0x472), (0x474, 0x474), (0x476, 0x476), (0x478, 0x478), (0x47A, 0x47A),
   (0x47C, 0x47C), (0x47E, 0x47E), (0x480, 0x480), (0x48A, 0x48A), (0x48C, 0x48C), (0x48E, 0x48E),
   (0x490, 0x490), (0x492, 0x492), (0x494, 0x494), (0x496, 0x496), (0x498, 0x498), (0x49A, 0x49A),
   (0x49C, 0x49C), (0x49E, 0x49E), (0x4A0, 0x4A0), (0x4A2, 0x4A2), (0x4A4, 0x4A4), (0x4A6, 0x4A6),
   (0x4A8, 0x4A8), (0x4AA, 0x4AA), (0x4AC, 0x4AC), (0x4AE, 0x4AE), (0x4B0, 0x4B0), (0x4B2, 0x4B2),
   (0x4B4, 0x4B4), (0x4B6, 0x4B6), (0x4B8, 0x4B8), (0x4BA, 0x4BA), (0x4BC, 0x4BC), (0x4BE, 0x4BE),
   (0x4C0, 0x4C1), (0x4C3, 0x4C3), (0x4C5, 0x4C5), (0x4C7, 0x4C7), (0x4C9, 0x4C9), (0x4CB, 0x4CB),
   (0x4CD, 0x4CD), (0x4D0, 0x4D0), (0x4D2, 0x4D2), (0x4D4, 0x4D4), (0x4D6, 0x4D6), (0x4D8, 0x4D8),
   (0x4DA, 0x4DA), (0x4DC, 0x4DC), (0x4DE, 0x4DE), (0x4E0, 0x4E0), (0x4E2, 0x4E2), (0x4E4, 0x4E4),
   (0x4E6, 0x4E6), (0x4E8, 0x4E8), (0x4EA, 0x4EA), (0x4EC, 0x4EC), (0x4EE, 0x4EE), (0x4F0, 0x4F0),
   (0x4F2, 0x4F2), (0x4F4, 0x4F4), (0x4F6, 0x4F6), (0x4F8, 0x4F8), (0x4FA, 0x4FA), (0x4FC, 0x4FC),
   (0x4FE, 0x4FE), (0x500, 0x500), (0x502, 0x502), (0x504, 0x504), (0x506, 0x506), (0x508, 0x508),
   (0x50A, 0x50A), (0x50C, 0x50C), (0x50E, 0x50E), (0x510, 0x510), (0x512, 0x512), (0x514, 0x514),
   (0x516, 0x516), (0x518, 0x518), (0x51A, 0x51A), (0x51C, 0x51C), (0x51E, 0x51E), (0x520, 0x520),
   (0x522, 0x522), (0x524, 0x524), (0x526, 0x526), (0x528, 0x528), (0x52A, 0x52A), (0x52C, 0x52C),
   (0x52E, 0x52E), (0x531, 0x556), (0x10A0, 0x10C5), (0x10C7, 0x10C7), (0x10CD, 0x10CD), (0x13A0, 0x13F5),
   (0x1C90, 0x1CBA), (0x1CBD, 0x1CBF), (0x1E00, 0x1E00), (0x1E02, 0x1E02), (0x1E04, 0x1E04), (0x1E06, 0x1E06),
   (0x1E08, 0x1E08), (0x1E0A, 0x1E0A), (0x1E0C, 0x1E0C), (0x1E0E, 0x1E0E), (0x1E10, 0x1E10), (0x1E12, 0x1E12),
   (0x1E14, 0x1E14), (0x1E16, 0x1E16), (0x1E18, 0x1E18), (0x1E1A, 0x1E1A), (0x1E1C, 0x1E1C), (0x1E1E, 0x1E1E),
   (0x1E20, 0x1E20), (0x1E22, 0x1E22), (0x1E24, 0x1E24), (0x1E26, 0x1E26), (0x1E28, 0x1E28), (0x1E2A, 0x1E2A),
   (0x1E2C, 0x1E2C), (0x1E2E, 0x1E2E), (0x1E30, 0x1E30), (0x1E32, 0x1E32), (0x1E34, 0x1E34), (0x1E36, 0x1E36),
   (0x1E38, 0x1E38), (0x1E3A, 0x1E3A), (0x1E3C, 0x1E3C), (0x1E3E, 0x1E3E), (0x1E40, 0x1E40), (0x1E42, 0x1E42),
   (0x1E44, 0x1E44), (0x1E46, 0x1E46), (0x1E48, 0x1E48), (0x1E4A, 0x1E4A), (0x1E4C, 0x1E4C), (0x1E4E, 0x1E4E),
   (0x1E50, 0x1E50), (0x1E52, 0x1E52), (0x1E54, 0x1E54), (0x1E56, 0x1E56), (0x1E58, 0x1E58), (0x1E5A, 0x1E5A),
   (0x1E5C, 0x1E5C), (0x1E5E, 0x1E5E), (0x1E60, 0x1E60), (0x1E62, 0x1E62), (0x1E64, 0x1E64), (0x1E66, 0x1E66),
   (0x1E68, 0x1E68), (0x1E6A, 0x1E6A), (0x1E6C, 0x1E6C), (0x1E6E, 0x1E6E), (0x1E70, 0x1E70), (0x1E72, 0x1E72),
   (0x1E74, 0x1E74), (0x1E76, 0x1E76), (0x1E78, 0x1E78), (0x1E7A, 0x1E7A), (0x1E7C, 0x1E7C), (0x1E7E, 0x1E7E),
   (0x1E80, 0x1E80), (0x1E82, 0x1E82), (0x1E84, 0x1E84), (0x1E86, 0x1E86), (0x1E88, 0x1E88), (0x1E8A, 0x1E8A),
   (0x1E8C, 0x1E8C), (0x1E8E, 0x1E8E), (0x1E90, 0x1E90), (0x1E92, 0x1E92), (0x1E94, 0x1E94), (0x1E9E, 0x1E9E),
   (0x1EA0, 0x1EA0), (0x1EA2, 0x1EA2), (0x1EA4, 0x1EA4), (0x1EA6, 0x1EA6), (0x1EA8, 0x1EA8), (0x1EAA, 0x1EAA),
   (0x1EAC, 0x1EAC), (0x1EAE, 0x1EAE), (0x1EB0, 0x1EB0), (0x1EB2, 0x1EB2), (0x1EB4, 0x1EB4), (0x1EB6, 0x1EB6),
   (0x1EB8, 0x1EB8), (0x1EBA, 0x1EBA), (0x1EBC, 0x1EBC), (0x1EBE, 0x1EBE), (0x1EC0, 0x1EC0), (0x1EC2, 0x1EC2),
   (0x1EC4, 0x1EC4), (0x1EC6, 0x1EC6), (0x1EC8, 0x1EC8), (0x1ECA, 0x1ECA), (0x1ECC, 0x1ECC), (0x1ECE, 0x1ECE),
   (0x1ED0, 0x1ED0), (0x1ED2, 0x1ED2), (0x1ED4, 0x1ED4), (0x1ED6, 0x1ED6), (0x1ED8, 0x1ED8), (0x1EDA, 0x1EDA),
   (0x1EDC, 0x1EDC), (0x1EDE, 0x1EDE), (0x1EE0, 0x1EE0), (0x1EE2, 0x1EE2), (0x1EE4, 0x1EE4), (0x1EE6, 0x1EE6),
   (0x1EE8, 0x1EE8), (0x1EEA, 0x1EEA), (0x1EEC, 0x1EEC), (0x1EEE, 0x1EEE), (0x1EF0, 0x1EF0), (0x1EF2, 0x1EF2),
   (0x1EF4, 0x1EF4), (0x1EF6, 0x1EF6), (0x1EF8, 0x1EF8), (0x1EFA, 0x1EFA), (0x1EFC, 0x1EFC), (0x1EFE, 0x1EFE),
   (0x1F08, 0x1F0F), (0x1F18, 0x1F1D), (0x1F28, 0x1F2F), (0x1F38, 0x1F3F), (0x1F48, 0x1F4D), (0x1F59, 0x1F59),
   (0x1F5B, 0x1F5B), (0x1F5D, 0x1F5D), (0x1F5F, 0x1F5F), (0x1F68, 0x1F6F), (0x1FB8, 0x1FBB), (0x1FC8, 0x1FCB),
   (0x1FD8, 0x1FDB), (0x1FE8, 0x1FEC), (0x1FF8, 0x1FFB), (0x2102, 0x2102), (0x2107, 0x2107), (0x210B, 0x210D),
   (0x2110, 0x2112), (0x2115, 0x2115), (0x2119, 0x211D), (0x2124, 0x2124), (0x2126, 0x2126), (0x2128, 0x2128),
   (0x212A, 0x212D), (0x2130, 0x2133), (0x213E, 0x213F), (0x2145, 0x2145), (0x2160, 0x216F), (0x2183, 0x2183),
   (0x24B6, 0x24CF), (0x2C00, 0x2C2F), (0x2C60, 0x2C60), (0x2C62, 0x2C64), (0x2C67, 0x2C67), (0x2C69, 0x2C69),
   (0x2C6B, 0x2C6B), (0x2C6D, 0x2C70), (0x2C72, 0x2C72), (0x2C75, 0x2C75), (0x2C7E, 0x2C80), (0x2C82, 0x2C82),
   (0x2C84, 0x2C84), (0x2C86, 0x2C86), (0x2C88, 0x2C88), (0x2C8A, 0x2C8A), (0x2C8C, 0x2C8C), (0x2C8E, 0x2C8E),
   (0x2C90, 0x2C90), (0x2C92, 0x2C92), (0x2C94, 0x2C94), (0x2C96, 0x2C96), (0x2C98, 0x2C98), (0x2C9A, 0x2C9A),
   (0x2C9C, 0x2C9C), (0x2C9E, 0x2C9E), (0x2CA0, 0x2CA0), (0x2CA2, 0x2CA2), (0x2CA4, 0x2CA4), (0x2CA6, 0x2CA6),
   (0x2CA8, 0x2CA8), (0x2CAA, 0x2CAA), (0x2CAC, 0x2CAC), (0x2CAE, 0x2CAE), (0x2CB0, 0x2CB0), (0x2CB2, 0x2CB2),
   (0x2CB4, 0x2CB4), (0x2CB6, 0x2CB6), (0x2CB8, 0x2CB8), (0x2CBA, 0x2CBA), (0x2CBC, 0x2CBC), (0x2CBE, 0x2CBE),
   (0x2CC0, 0x2CC0), (0x2CC2, 0x2CC2), (0x2CC4, 0x2CC4), (0x2CC6, 0x2CC6), (0x2CC8, 0x2CC8), (0x2CCA, 0x2CCA),
   (0x2CCC, 0x2CCC), (0x2CCE, 0x2CCE), (0x2CD0, 0x2CD0), (0x2CD2, 0x2CD2), (0x2CD4, 0x2CD4), (0x2CD6, 0x2CD6),
   (0x2CD8, 0x2CD8), (0x2CDA, 0x2CDA), (0x2CDC, 0x2CDC), (0x2CDE, 0x2CDE), (0x2CE0, 0x2CE0), (0x2CE2, 0x2CE2),
   (0x2CEB, 0x2CEB), (0x2CED, 0x2CED), (0x2CF2, 0x2CF2), (0xA640, 0xA640), (0xA642, 0xA642), (0xA644, 0xA644),
   (0xA646, 0xA646), (0xA648, 0xA648), (0xA64A, 0xA64A), (0xA64C, 0xA64C), (0xA64E, 0xA64E), (0xA650, 0xA650),
   (0xA652, 0xA652), (0xA654, 0xA654), (0xA656, 0xA656), (0xA658, 0xA658), (0xA65A, 0xA65A), (0xA65C, 0xA65C),
   (0xA65E, 0xA65E), (0xA660, 0xA660), (0xA662, 0xA662), (0xA664, 0xA664), (0xA666, 0xA666), (0xA668, 0xA668),
   (0xA66A, 0xA66A), (0xA66C, 0xA66C), (0xA680, 0xA680), (0xA682, 0xA682), (0xA684, 0xA684), (0xA686, 0xA686),
   (0xA688, 0xA688), (0xA68A, 0xA68A), (0xA68C, 0xA68C), (0xA68E, 0xA68E), (0xA690, 0xA690), (0xA692, 0xA692),
   (0xA694, 0xA694), (0xA696, 0xA696), (0xA698, 0xA698), (0xA69A, 0xA69A), (0xA722, 0xA722), (0xA724, 0xA724),
   (0xA726, 0xA726), (0xA728, 0xA728), (0xA72A, 0xA72A), (0xA72C, 0xA72C), (0xA72E, 0xA72E), (0xA732, 0xA732),
   (0xA734, 0xA734), (0xA736, 0xA736), (0xA738, 0xA738), (0xA73A, 0xA73A), (0xA73C, 0xA73C), (0xA73E, 0xA73E),
   (0xA740, 0xA740), (0xA742, 0xA742), (0xA744, 0xA744), (0xA746, 0xA746), (0xA748, 0xA748), (0xA74A, 0xA74A),
   (0xA74C, 0xA74C), (0xA74E, 0xA74E), (0xA750, 0xA750), (0xA752, 0xA752), (0xA754, 0xA754), (0xA756, 0xA756),
   (0xA758, 0xA758), (0xA75A, 0xA75A), (0xA75C, 0xA75C), (0xA75E, 0xA75E), (0xA760, 0xA760), (0xA762, 0xA762),
   (0xA764, 0xA764), (0xA766, 0xA766), (0xA768, 0xA768), (0xA76A, 0xA76A), (0xA76C, 0xA76C), (0xA76E, 0xA76E),
   (0xA779, 0xA779), (0xA77B, 0xA77B), (0xA77D, 0xA77E), (0xA780, 0xA780), (0xA782, 0xA782), (0xA784, 0xA784),
   (0xA786, 0xA786), (0xA78B, 0xA78B), (0xA78D, 0xA78D), (0xA790, 0xA790), (0xA792, 0xA792), (0xA796, 0xA796),
   (0xA798, 0xA798), (0xA79A, 0xA79A), (0xA79C, 0xA79C), (0xA79E, 0xA79E), (0xA7A0, 0xA7A0), (0xA7A2, 0xA7A2),
   (0xA7A4, 0xA7A4), (0xA7A6, 0xA7A6), (0xA7A8, 0xA7A8), (0xA7AA, 0xA7AE), (0xA7B0, 0xA7B4), (0xA7B6, 0xA7B6),
   (0xA7B8, 0xA7B8), (0xA7BA, 0xA7BA), (0xA7BC, 0xA7BC), (0xA7BE, 0xA7BE), (0xA7C0, 0xA7C0), (0xA7C2, 0xA7C2),
   (0xA7C4, 0xA7C7), (0xA7C9, 0xA7C9), (0xA7D0, 0xA7D0), (0xA7D6, 0xA7D6), (0xA7D8, 0xA7D8), (0xA7F5, 0xA7F5),
   (0xFF21, 0xFF3A), (0x10400, 0x10427), (0x104B0, 0x104D3), (0x10570, 0x1057A), (0x1057C, 0x1058A), (0x1058C, 0x10592),
   (0x10594, 0x10595), (0x10C80, 0x10CB2), (0x118A0, 0x118BF), (0x16E40, 0x16E5F), (0x1D400, 0x1D419), (0x1D434, 0x1D44D),
   (0x1D468, 0x1D481), (0x1D49C, 0x1D49C), (0x1D49E, 0x1D49F), (0x1D4A2, 0x1D4A2), (0x1D4A5, 0x1D4A6), (0x1D4A9, 0x1D4AC),
   (0x1D4AE, 0x1D4B5), (0x1D4D0, 0x1D4E9), (0x1D504, 0x1D505), (0x1D507, 0x1D50A), (0x1D50D, 0x1D514), (0x1D516, 0x1D51C),
   (0x1D538, 0x1D539), (0x1D53B, 0x1D53E), (0x1D540, 0x1D544), (0x1D546, 0x1D546), (0x1D54A, 0x1D550), (0x1D56C, 0x1D585),
   (0x1D5A0, 0x1D5B9), (0x1D5D4, 0x1D5ED), (0x1D608, 0x1D621), (0x1D63C, 0x1D655), (0x1D670, 0x1D689), (0x1D6A8, 0x1D6C0),
   (0x1D6E2, 0x1D6FA), (0x1D71C, 0x1D734), (0x1D756, 0x1D76E), (0x1D790, 0x1D7A8), (0x1D7CA, 0x1D7CA), (0x1E900, 0x1E921),
   (0x1F130, 0x1F149), (0x1F150, 0x1F169), (0x1F170, 0x1F189)]

/-- Model of Python's `str.isupper` on a single character (Unicode-aware):
membership in one of the uppercase code-point ranges. -/
def pyIsUpper (c : Char) : Bool :=
  pyUpperRanges.any (fun r => decide (r.1 ≤ c.toNat) && decide (c.toNat ≤ r.2))

/-- Model of Python's `str.strip()`: remove leading and trailing whitespace. -/
def pystrip (l : List Char) : List Char :=
  ((l.dropWhile pyIsSpace).reverse.dropWhile pyIsSpace).reverse

/-- Characters escaped by Python 3.7+ `re.escape` (its `_special_chars_map`). -/
def reSpecial : List Char :=
  ['(', ')', '[', ']', '\x7b', '\x7d', '?', '*', '+', '-', '|', '^', '$',
   '\\', '.', '&', '~', '#', ' ', '\t', '\n', '\x0b', '\x0c', '\r']

/-- Model of `re.escape`: prepend a backslash to every special character. -/
def reEscape (s : List Char) : List Char :=
  s.foldr (fun c acc => (if reSpecial.contains c then ['\\', c] else [c]) ++ acc) []

/-- Join with the `'|'` separator, as `'|'.join(...)` does. -/
def joinBar : List (List Char) → List Char
  | [] => []
  | [x] => x
  | x :: xs => x ++ '|' :: joinBar xs

/-- `ResponseParser.process_options` (utils.py:270-275): escape each option and
join the escaped options with `'|'`. -/
def process_options (options : List (List Char)) : List Char :=
  joinBar (options.map reEscape)

/-- Characters denoted by the character class `[s]` for `s` an output of
`process_options`: a backslash escapes the following character, every other
character stands for itself.  (Because `re.escape` escapes `]`, `-` and `^`,
no range, negation or class-escape syntax can occur in such a class, so this
is the complete Python semantics of these classes.) -/
def classChars : List Char → List Char
  | [] => []
  | '\\' :: c :: rest => c :: classChars rest
  | c :: rest => c :: classChars rest

/-- Membership test of the option character class `[options_concat]`. -/
def clsK (oc : List Char) (c : Char) : Bool := (classChars oc).contains c

/-- Membership test of the option character class under `(?i)`: Python lowers
both the class characters and the input character (ASCII model). -/
def iclsK (oc : List Char) (c : Char) : Bool :=
  (classChars oc).any (fun k => k.toLower == c.toLower)

/-- Abstract syntax of the regex fragment used by the cascade.  `tok p`
consumes one character satisfying `p`; `star greedy p` is `p*` (greedy) or
`p*?` (lazy); `grp i r` is capture group `i`; `bos` is `^`, `eol` is `$`. -/
inductive Re where
  | eps : Re
  | tok : (Char → Bool) → Re
  | seq : Re → Re → Re
  | alt : Re → Re → Re
  | star : Bool → (Char → Bool) → Re
  | grp : Nat → Re → Re
  | bos : Re
  | eol : Re

/-- Capture list: entries `(index, startPos, endPos)`. -/
abbrev Caps := List (Nat × Nat × Nat)

/-- Continuation of the backtracking matcher: receives the remaining input,
the current absolute position, and the captures recorded so far. -/
abbrev RCont := List Char → Nat → Caps → Option (Nat × Caps)

/-- Greedy star over a single-character predicate: prefer consuming. -/
def repG (p : Char → Bool) (k : RCont) : List Char → Nat → Caps → Option (Nat × Caps)
  | [], pos, cps => k [] pos cps
  | c :: s, pos, cps =>
    (if p c then repG p k s (pos + 1) cps else none).orElse
      (fun _ => k (c :: s) pos cps)

/-- Lazy star over a single-character predicate: prefer not consuming. -/
def repL (p : Char → Bool) (k : RCont) : List Char → Nat → Caps → Option (Nat × Caps)
  | [], pos, cps => k [] pos cps
  | c :: s, pos, cps =>
    (k (c :: s) pos cps).orElse
      (fun _ => if p c then repL p k s (pos + 1) cps else none)

/-- Backtracking matcher in continuation-passing style.  `mrun r s pos cps k`
tries to match `r` at the current point; on success of `r` it calls `k` with
the rest of the input.  `Option.orElse` gives Python's preference order:
first alternative first, greedy prefers long, lazy prefers short. -/
def mrun : Re → List Char → Nat → Caps → RCont → Option (Nat × Caps)
  | Re.eps, s, pos, cps, k => k s pos cps
  | Re.tok p, s, pos, cps, k =>
    match s with
    | [] => none
    | c :: s' => if p c then k s' (pos + 1) cps else none
  | Re.seq a b, s, pos, cps, k =>
    mrun a s pos cps (fun s' pos' cps' => mrun b s' pos' cps' k)
  | Re.alt a b, s, pos, cps, k =>
    (mrun a s pos cps k).orElse (fun _ => mrun b s pos cps k)
  | Re.star true p, s, pos, cps, k => repG p k s pos cps
  | Re.star false p, s, pos, cps, k => repL p k s pos cps
  | Re.grp i r, s, pos, cps, k =>
    mrun r s pos cps (fun s' pos' cps' => k s' pos' ((i, pos, pos') :: cps'))
  | Re.bos, s, pos, cps, k => if pos = 0 then k s pos cps else none
  | Re.eol, s, pos, cps, k => if s = [] ∨ s = ['\n'] then k s pos cps else none

/-- Result of a successful `re.search`: span of the whole match and captures. -/
structure MFound where
  mstart : Nat
  mend : Nat
  caps : Caps
  deriving DecidableEq, Repr

/-- Top continuation: accept whatever point the pattern reached. -/
def topK : RCont := fun _ pos cps => some (pos, cps)

/-- Try the pattern at each start position, leftmost first (`re.search`). -/
def reSearchAux (r : Re) : List Char → Nat → Option MFound
  | [], pos =>
    match mrun r [] pos [] topK with
    | some (e, cps) => some ⟨pos, e, cps⟩
    | none => none
  | c :: t, pos =>
    match mrun r (c :: t) pos [] topK with
    | some (e, cps) => some ⟨pos, e, cps⟩
    | none => reSearchAux r t (pos + 1)

/-- Model of `re.search(pattern, text, re.DOTALL)`. -/
def reSearch (r : Re) (t : List Char) : Option MFound := reSearchAux r t 0

/-- Substring of `t` between absolute positions `a` (inclusive) and `b`
(exclusive), as Python's `match.group` slicing does. -/
def subSpan (t : List Char) (a b : Nat) : List Char := (t.drop a).take (b - a)

/-- Span of capture group `i`, if the group participated in the match. -/
def capLookup (cps : Caps) (i : Nat) : Option (Nat × Nat) :=
  match cps.find? (fun e => e.1 == i) with
  | some (_, a, b) => some (a, b)
  | none => none

/-- One iteration body of the cascade loop (utils.py:248-253): search the
pattern and, on a match, select `group(1)` if it is present and non-empty,
otherwise `group(0)`. -/
def tryPattern (t : List Char) (r : Re) : Option (List Char) :=
  match reSearch r t with
  | none => none
  | some m =>
    match capLookup m.caps 1 with
    | some (a, b) =>
      let g1 := subSpan t a b
      if g1.isEmpty then some (subSpan t m.mstart m.mend) else some g1
    | none => some (subSpan t m.mstart m.mend)

/-- Inner label scan (utils.py:254-256): `for i in options_concat: if i in
outputs: return i` — the first character of the joined option string that is
contained in the candidate substring. -/
def scanOptions (oc : List Char) (outputs : List Char) : Option Char :=
  oc.find? (fun i => outputs.contains i)

/-- The cascade loop (utils.py:246-257): per pattern, re-strip the text,
search the pattern, and on a match scan `options_concat` through the candidate
substring; a match whose candidate contains no option character falls through
to the next pattern; exhaustion returns the empty string. -/
def parseLoop (oc : List Char) : List Re → List Char → List Char
  | [], _ => []
  | r :: ps, text =>
    let t := pystrip text
    match tryPattern t r with
    | some outputs =>
      match scanOptions oc outputs with
      | some c => [c]
      | none => parseLoop oc ps t
    | none => parseLoop oc ps t

/-- Single literal character. -/
def chP (c : Char) : Re := Re.tok (fun x => x == c)

/-- Case-insensitive literal character (for the `(?i)` pattern), ASCII model:
matches either given case variant. -/
def icP (a b : Char) : Re := Re.tok (fun x => x == a || x == b)

/-- Concrete character class `[...]` whose members are listed explicitly. -/
def clsP (l : List Char) : Re := Re.tok (fun x => l.contains x)

/-- Character class containing `\s` plus listed literal characters. -/
def wsCls (l : List Char) : Re := Re.tok (fun x => pyIsSpace x || l.contains x)

/-- The class `\s`. -/
def wsP : Re := Re.tok pyIsSpace

/-- Negated-whitespace predicate (`\S`). -/
def nwsF (x : Char) : Bool := !(pyIsSpace x)

/-- The class `\S`. -/
def nwsP : Re := Re.tok nwsF

/-- Any-character predicate: `.` under `re.DOTALL`. -/
def anyF (_ : Char) : Bool := true

/-- The metacharacter `.` under `re.DOTALL`. -/
def anyP : Re := Re.tok anyF

/-- Greedy option `r?` (try matching first, as Python does). -/
def optR (r : Re) : Re := Re.alt r Re.eps

/-- Greedy optional literal character `c?`. -/
def optC (c : Char) : Re := optR (chP c)

/-- Greedy optional whitespace `\s?`. -/
def wsOpt : Re := optR wsP

/-- Greedy `\s*`. -/
def wsStar : Re := Re.star true pyIsSpace

/-- Literal string, as a flat list of one-character items. -/
def lits (s : String) : List Re := s.toList.map chP

/-- Sequence a flat item list into a single regex. -/
def rcat (l : List Re) : Re := l.foldr Re.seq Re.eps

/-- The option character class `[options_concat]`. -/
def kTok (oc : List Char) : Re := Re.tok (clsK oc)

/-- The captured option class `([options_concat])` as group 1. -/
def g1K (oc : List Char) : Re := Re.grp 1 (kTok oc)

/-- The pattern cascade of `ResponseParser.parse_first_option`
(utils.py:186-238), in source order.  Note the missing comma between the
source lines 200 and 201: Python string-literal concatenation glues the
`故选?\s*([X])` template and the `只有选?项?\s?([X])\s?是?对` template into a
single pattern with two capture groups, so the list has 50 patterns for 51
template lines. -/
def patterns (oc : List Char) : List Re :=
  [ rcat (lits "答案" ++ [optC '是', wsStar, g1K oc]),
    rcat (lits "答案" ++ [optC '是', wsStar, chP '：', wsStar, g1K oc]),
    rcat (lits "答案" ++ [optC '是', wsStar, chP ':', wsStar, g1K oc]),
    rcat (lits "答案选项" ++ [optC '应', optC '该', chP '是', wsStar, g1K oc]),
    rcat (lits "答案选项" ++ [optC '应', optC '该', chP '为', wsStar, g1K oc]),
    rcat (lits "答案应" ++ [optC '该', chP '是', wsStar, g1K oc]),
    rcat (lits "答案应" ++ [optC '该', chP '选', wsStar, g1K oc]),
    rcat (lits "答案选项" ++ [optC '为', wsStar, chP '：', wsStar, g1K oc]),
    rcat (lits "答案选项" ++ [optC '为', wsP, wsStar, optC '(', optC '*', optC '*',
          g1K oc, optC '*', optC '*', optC ')']),
    rcat (lits "答案选项" ++ [optC '是', wsStar, chP ':', wsStar, g1K oc]),
    rcat (lits "答案为" ++ [wsStar, g1K oc]),
    rcat (lits "答案选" ++ [wsStar, g1K oc]),
    rcat ([chP '选', optC '择', wsStar, g1K oc]),
    rcat ([chP '故', optC '选', wsStar, g1K oc] ++ lits "只有" ++
          [optC '选', optC '项', wsOpt, Re.grp 2 (kTok oc), wsOpt, optC '是', chP '对']),
    rcat (lits "只有" ++ [optC '选', optC '项', wsOpt, g1K oc, wsOpt, optC '是', chP '错']),
    rcat (lits "只有" ++ [optC '选', optC '项', wsOpt, g1K oc, wsOpt, optC '不'] ++ lits "正确"),
    rcat (lits "只有" ++ [optC '选', optC '项', wsOpt, g1K oc, wsOpt] ++ lits "错误"),
    rcat (lits "说法" ++ [optC '不', chP '对', optC '选', optC '项', optC '的', chP '是', wsOpt, g1K oc]),
    rcat (lits "说法" ++ [optC '不'] ++ lits "正确" ++ [optC '选', optC '项', optC '的', chP '是', wsOpt, g1K oc]),
    rcat (lits "说法错误" ++ [optC '选', optC '项', optC '的', chP '是', wsOpt, g1K oc]),
    rcat ([g1K oc, wsOpt] ++ lits "是正确的"),
    rcat ([g1K oc, wsOpt] ++ lits "是正确答案"),
    rcat (lits "选项" ++ [wsOpt, g1K oc, wsOpt] ++ lits "正确"),
    rcat (lits "所以答" ++ [wsOpt, g1K oc]),
    rcat (lits "所以" ++ [wsOpt, Re.grp 1 (rcat [kTok oc, optR (clsP ['.', '。', '$']), Re.eol])]),
    rcat (lits "所有" ++ [wsOpt, Re.grp 1 (rcat [kTok oc, optR (clsP ['.', '。', '$']), Re.eol])]),
    rcat ([wsCls ['，', '：', ':', ','], g1K oc, optR (clsP ['。', '，', ',', '.']), Re.eol]),
    rcat ([wsCls ['，', ',', '：', ':'], clsP ['故', '即'], g1K oc, optR (clsP ['。', '.']), Re.eol]),
    rcat ([wsCls ['，', ',', '：', ':']] ++ lits "因此" ++ [g1K oc, optR (clsP ['。', '.']), Re.eol]),
    rcat ([clsP ['是', '为', '。'], wsOpt, g1K oc, optR (clsP ['。', '.']), Re.eol]),
    rcat (lits "因此" ++ [wsOpt, g1K oc, optR (clsP ['。', '.']), Re.eol]),
    rcat (lits "显然" ++ [wsOpt, g1K oc, optR (clsP ['。', '.']), Re.eol]),
    rcat (lits "答案是" ++ [wsOpt, Re.grp 1 (rcat [nwsP, Re.star true nwsF]), Re.alt (chP '。') Re.eol]),
    rcat (lits "答案应该是" ++ [wsOpt, Re.grp 1 (rcat [nwsP, Re.star true nwsF]), Re.alt (chP '。') Re.eol]),
    rcat (lits "答案为" ++ [wsOpt, Re.grp 1 (rcat [nwsP, Re.star true nwsF]), Re.alt (chP '。') Re.eol]),
    rcat ([icP 'A' 'a', icP 'N' 'n', icP 'S' 's', icP 'W' 'w', icP 'E' 'e', icP 'R' 'r',
          wsStar, chP ':', wsStar, Re.grp 1 (Re.tok (iclsK oc))]),
    rcat ([clsP ['T', 't']] ++ lits "he answer is" ++ [optC ':', wsP, wsStar, optC '(', g1K oc, optC ')']),
    rcat ([clsP ['T', 't']] ++ lits "he answer is" ++
          [optC ':', wsP, wsStar, optC '(', optC '*', optC '*', g1K oc, optC '*', optC '*', optC ')']),
    rcat ([clsP ['T', 't']] ++ lits "he answer is option" ++ [optC ':', wsP, wsStar, optC '(', g1K oc, optC ')']),
    rcat ([clsP ['T', 't']] ++ lits "he correct answer is" ++ [optC ':', wsP, wsStar, optC '(', g1K oc, optC ')']),
    rcat ([clsP ['T', 't']] ++ lits "he correct answer is option" ++ [optC ':', wsP, wsStar, optC '(', g1K oc, optC ')']),
    rcat ([clsP ['T', 't']] ++ lits "he correct answer is" ++
          [optC ':', Re.star false anyF] ++ lits "boxed" ++ [chP '\x7b', g1K oc, chP '\x7d']),
    rcat ([clsP ['T', 't']] ++ lits "he correct option is" ++
          [optC ':', Re.star false anyF] ++ lits "boxed" ++ [chP '\x7b', g1K oc, chP '\x7d']),
    rcat ([clsP ['T', 't']] ++ lits "he correct answer option is" ++
          [optC ':', Re.star false anyF] ++ lits "boxed" ++ [chP '\x7b', g1K oc, chP '\x7d']),
    rcat ([clsP ['T', 't']] ++ lits "he answer to the question is" ++ [optC ':', wsP, wsStar, optC '(', g1K oc, optC ')']),
    rcat ([Re.bos] ++ lits "选项" ++ [wsOpt, g1K oc]),
    rcat ([Re.bos, g1K oc, wsOpt, optC '选', chP '项']),
    rcat ([Re.grp 1 (Re.alt wsP Re.bos), kTok oc, wsCls ['。', '，', ',', '：', ':', '.', '$']]),
    rcat ([chP '1', anyP, wsOpt, Re.grp 1 (Re.star false anyF), Re.eol]),
    rcat ([chP '1', anyP, wsOpt, g1K oc, optR (clsP ['.', '。', '$']), Re.eol]) ]

/-- `ResponseParser.parse_first_option` (utils.py:176-257).  `none` models the
`re.error` exception raised by `re.search` when `options_concat` is empty: the
very first pattern then contains the character class `[]`, which is invalid in
Python (`unterminated character set`), so the call raises instead of
returning.  For a non-empty `options_concat` every pattern is a valid regex
(escaping guarantees a backslash is always followed by a character and that
`]`, `^` and `-` never appear unescaped in the class), so the call returns. -/
def parse_first_option (text : List Char) (options : List (List Char)) : Option (List Char) :=
  let oc := process_options options
  if oc.isEmpty then none else some (parseLoop oc (patterns oc) text)

/-- The pattern cascade of `ResponseParser.parse_first_option_with_choices`
(utils.py:103-155), transcribed separately from its own source block; the
block is character-for-character identical to the one in `parse_first_option`,
including the glued pattern produced by the missing comma (lines 117-118). -/
def patternsWC (oc : List Char) : List Re :=
  [ rcat (lits "答案" ++ [optC '是', wsStar, g1K oc]),
    rcat (lits "答案" ++ [optC '是', wsStar, chP '：', wsStar, g1K oc]),
    rcat (lits "答案" ++ [optC '是', wsStar, chP ':', wsStar, g1K oc]),
    rcat (lits "答案选项" ++ [optC '应', optC '该', chP '是', wsStar, g1K oc]),
    rcat (lits "答案选项" ++ [optC '应', optC '该', chP '为', wsStar, g1K oc]),
    rcat (lits "答案应" ++ [optC '该', chP '是', wsStar, g1K oc]),
    rcat (lits "答案应" ++ [optC '该', chP '选', wsStar, g1K oc]),
    rcat (lits "答案选项" ++ [optC '为', wsStar, chP '：', wsStar, g1K oc]),
    rcat (lits "答案选项" ++ [optC '为', wsP, wsStar, optC '(', optC '*', optC '*',
          g1K oc, optC '*', optC '*', optC ')']),
    rcat (lits "答案选项" ++ [optC '是', wsStar, chP ':', wsStar, g1K oc]),
    rcat (lits "答案为" ++ [wsStar, g1K oc]),
    rcat (lits "答案选" ++ [wsStar, g1K oc]),
    rcat ([chP '选', optC '择', wsStar, g1K oc]),
    rcat ([chP '故', optC '选', wsStar, g1K oc] ++ lits "只有" ++
          [optC '选', optC '项', wsOpt, Re.grp 2 (kTok oc), wsOpt, optC '是', chP '对']),
    rcat (lits "只有" ++ [optC '选', optC '项', wsOpt, g1K oc, wsOpt, optC '是', chP '错']),
    rcat (lits "只有" ++ [optC '选', optC '项', wsOpt, g1K oc, wsOpt, optC '不'] ++ lits "正确"),
    rcat (lits "只有" ++ [optC '选', optC '项', wsOpt, g1K oc, wsOpt] ++ lits "错误"),
    rcat (lits "说法" ++ [optC '不', chP '对', optC '选', optC '项', optC '的', chP '是', wsOpt, g1K oc]),
    rcat (lits "说法" ++ [optC '不'] ++ lits "正确" ++ [optC '选', optC '项', optC '的', chP '是', wsOpt, g1K oc]),
    rcat (lits "说法错误" ++ [optC '选', optC '项', optC '的', chP '是', wsOpt, g1K oc]),
    rcat ([g1K oc, wsOpt] ++ lits "是正确的"),
    rcat ([g1K oc, wsOpt] ++ lits "是正确答案"),
    rcat (lits "选项" ++ [wsOpt, g1K oc, wsOpt] ++ lits "正确"),
    rcat (lits "所以答" ++ [wsOpt, g1K oc]),
    rcat (lits "所以" ++ [wsOpt, Re.grp 1 (rcat [kTok oc, optR (clsP ['.', '。', '$']), Re.eol])]),
    rcat (lits "所有" ++ [wsOpt, Re.grp 1 (rcat [kTok oc, optR (clsP ['.', '。', '$']), Re.eol])]),
    rcat ([wsCls ['，', '：', ':', ','], g1K oc, optR (clsP ['。', '，', ',', '.']), Re.eol]),
    rcat ([wsCls ['，', ',', '：', ':'], clsP ['故', '即'], g1K oc, optR (clsP ['。', '.']), Re.eol]),
    rcat ([wsCls ['，', ',', '：', ':']] ++ lits "因此" ++ [g1K oc, optR (clsP ['。', '.']), Re.eol]),
    rcat ([clsP ['是', '为', '。'], wsOpt, g1K oc, optR (clsP ['。', '.']), Re.eol]),
    rcat (lits "因此" ++ [wsOpt, g1K oc, optR (clsP ['。', '.']), Re.eol]),
    rcat (lits "显然" ++ [wsOpt, g1K oc, optR (clsP ['。', '.']), Re.eol]),
    rcat (lits "答案是" ++ [wsOpt, Re.grp 1 (rcat [nwsP, Re.star true nwsF]), Re.alt (chP '。') Re.eol]),
    rcat (lits "答案应该是" ++ [wsOpt, Re.grp 1 (rcat [nwsP, Re.star true nwsF]), Re.alt (chP '。') Re.eol]),
    rcat (lits "答案为" ++ [wsOpt, Re.grp 1 (rcat [nwsP, Re.star true nwsF]), Re.alt (chP '。') Re.eol]),
    rcat ([icP 'A' 'a', icP 'N' 'n', icP 'S' 's', icP 'W' 'w', icP 'E' 'e', icP 'R' 'r',
          wsStar, chP ':', wsStar, Re.grp 1 (Re.tok (iclsK oc))]),
    rcat ([clsP ['T', 't']] ++ lits "he answer is" ++ [optC ':', wsP, wsStar, optC '(', g1K oc, optC ')']),
    rcat ([clsP ['T', 't']] ++ lits "he answer is" ++
          [optC ':', wsP, wsStar, optC '(', optC '*', optC '*', g1K oc, optC '*', optC '*', optC ')']),
    rcat ([clsP ['T', 't']] ++ lits "he answer is option" ++ [optC ':', wsP, wsStar, optC '(', g1K oc, optC ')']),
    rcat ([clsP ['T', 't']] ++ lits "he correct answer is" ++ [optC ':', wsP, wsStar, optC '(', g1K oc, optC ')']),
    rcat ([clsP ['T', 't']] ++ lits "he correct answer is option" ++ [optC ':', wsP, wsStar, optC '(', g1K oc, optC ')']),
    rcat ([clsP ['T', 't']] ++ lits "he correct answer is" ++
          [optC ':', Re.star false anyF] ++ lits "boxed" ++ [chP '\x7b', g1K oc, chP '\x7d']),
    rcat ([clsP ['T', 't']] ++ lits "he correct option is" ++
          [optC ':', Re.star false anyF] ++ lits "boxed" ++ [chP '\x7b', g1K oc, chP '\x7d']),
    rcat ([clsP ['T', 't']] ++ lits "he correct answer option is" ++
          [optC ':', Re.star false anyF] ++ lits "boxed" ++ [chP '\x7b', g1K oc, chP '\x7d']),
    rcat ([clsP ['T', 't']] ++ lits "he answer to the question is" ++ [optC ':', wsP, wsStar, optC '(', g1K oc, optC ')']),
    rcat ([Re.bos] ++ lits "选项" ++ [wsOpt, g1K oc]),
    rcat ([Re.bos, g1K oc, wsOpt, optC '选', chP '项']),
    rcat ([Re.grp 1 (Re.alt wsP Re.bos), kTok oc, wsCls ['。', '，', ',', '：', ':', '.', '$']]),
    rcat ([chP '1', anyP, wsOpt, Re.grp 1 (Re.star false anyF), Re.eol]),
    rcat ([chP '1', anyP, wsOpt, g1K oc, optR (clsP ['.', '。', '$']), Re.eol]) ]

/-- `ResponseParser.parse_first_option_with_choices` (utils.py:92-174): same
compilation, cascade and scan loop as `parse_first_option`. -/
def parse_first_option_with_choices (text : List Char) (options : List (List Char)) :
    Option (List Char) :=
  let oc := process_options options
  if oc.isEmpty then none else some (parseLoop oc (patternsWC oc) text)

/-- Shared loop body of the capital-letter parsers: return the first scanned
character that is uppercase and a member (as a one-character string) of the
options list (`t.isupper() and (t in options)`), else the empty string. -/
def capScan (options : List (List Char)) : List Char → List Char
  | [] => []
  | c :: rest => if pyIsUpper c && options.contains [c] then [c] else capScan options rest

/-- `ResponseParser.parse_first_capital` (utils.py:78-83): forward scan. -/
def parse_first_capital (text : List Char) (options : List (List Char)) : List Char :=
  capScan options text

/-- `ResponseParser.parse_last_capital` (utils.py:85-90): scan of `text[::-1]`. -/
def parse_last_capital (text : List Char) (options : List (List Char)) : List Char :=
  capScan options text.reverse

/-- Alternatives generated by the f-string `<({options})>` of
`parse_bracketed_answer`: the '|'-alternation of the escaped options.  With an
empty options list the f-string produces the pattern `<()>`, whose group is an
empty alternative matching the empty string, so the alternative list is then
the single empty label. -/
def bracketAlternatives (options : List (List Char)) : List (List Char) :=
  if options.isEmpty then [[]] else options

/-- Literal-prefix test: does the second list start with the first? -/
def leadsWith : List Char → List Char → Bool
  | [], _ => true
  | _ :: _, [] => false
  | a :: as, b :: bs => a == b && leadsWith as bs

/-- Alternation attempt at one position: the first alternative `l` (in source
order, as Python tries `|` branches) such that `<` ++ l ++ `>` starts here.
Escaping makes every alternative a literal string, so this is the complete
semantics of the pattern `<(l1|...|ln)>` at a fixed position. -/
def bracketAt (alts : List (List Char)) (t : List Char) : Option (List Char) :=
  alts.find? (fun l => leadsWith ('<' :: l ++ ['>']) t)

/-- Leftmost-position search for `<(l1|...|ln)>`, as `re.search` performs it. -/
def bsearch (alts : List (List Char)) : List Char → Option (List Char)
  | [] => none
  | c :: rest =>
    match bracketAt alts (c :: rest) with
    | some l => some l
    | none => bsearch alts rest

/-- `ResponseParser.parse_bracketed_answer` (utils.py:260-267). -/
def parse_bracketed_answer (text : List Char) (options : List (List Char)) : List Char :=
  match bsearch (bracketAlternatives options) text with
  | some l => l
  | none => "No valid option found".toList

/-- Minimum number of characters any match of `r` must consume. -/
def minLen : Re → Nat
  | Re.eps => 0
  | Re.tok _ => 1
  | Re.seq a b => minLen a + minLen b
  | Re.alt a b => min (minLen a) (minLen b)
  | Re.star _ _ => 0
  | Re.grp _ r => minLen r
  | Re.bos => 0
  | Re.eol => 0

/-- On exhausted input, the matcher can only call its continuation on
exhausted input at the same position; if the continuation always fails
there, the whole run fails. -/
theorem mrun_nil_stuck (r : Re) : ∀ (pos : Nat) (cps : Caps) (k : RCont),
    (∀ cps', k [] pos cps' = none) → mrun r [] pos cps k = none := by
  induction r with
  | eps => intro pos cps k hk; exact hk cps
  | tok p => intro pos cps k hk; rfl
  | seq a b iha ihb =>
      intro pos cps k hk
      exact iha pos cps _ (fun cps' => ihb pos cps' k hk)
  | alt a b iha ihb =>
      intro pos cps k hk
      simp only [mrun, iha pos cps k hk, ihb pos cps k hk, Option.orElse]
  | star g p =>
      intro pos cps k hk
      cases g <;> simp [mrun, repG, repL, hk]
  | grp i r ih =>
      intro pos cps k hk
      exact ih pos cps _ (fun cps' => hk _)
  | bos =>
      intro pos cps k hk
      simp only [mrun, hk]
      split <;> rfl
  | eol =>
      intro pos cps k hk
      simp only [mrun]
      split <;> simp [hk]

/-- A pattern that must consume at least one character fails on empty input. -/
theorem mrun_nil_none (r : Re) (h : 1 ≤ minLen r) :
    ∀ (pos : Nat) (cps : Caps) (k : RCont), mrun r [] pos cps k = none := by
  induction r with
  | eps => simp [minLen] at h
  | tok p => intro pos cps k; rfl
  | seq a b iha ihb =>
      intro pos cps k
      by_cases ha : 1 ≤ minLen a
      · exact iha ha pos cps _
      · have hb : 1 ≤ minLen b := by
          simp only [minLen] at h
          omega
        exact mrun_nil_stuck a pos cps _ (fun cps' => ihb hb pos cps' k)
  | alt a b iha ihb =>
      intro pos cps k
      have hab := Nat.le_min.mp (by simpa [minLen] using h)
      simp only [mrun, iha hab.1 pos cps k, ihb hab.2 pos cps k, Option.orElse]
  | star g p => simp [minLen] at h
  | grp i r ih => intro pos cps k; exact ih h pos cps _
  | bos => simp [minLen] at h
  | eol => simp [minLen] at h

/-- If the pattern fails at every suffix of the text, the search fails. -/
theorem reSearchAux_none (r : Re) :
    ∀ (t : List Char), (∀ s pos', (∃ u, t = u ++ s) → mrun r s pos' [] topK = none) →
      ∀ pos, reSearchAux r t pos = none := by
  intro t
  induction t with
  | nil =>
      intro h pos
      have h0 := h [] pos ⟨[], rfl⟩
      simp [reSearchAux, h0]
  | cons c t ih =>
      intro h pos
      have h0 := h (c :: t) pos ⟨[], rfl⟩
      have ht : ∀ s pos', (∃ u, t = u ++ s) → mrun r s pos' [] topK = none := by
        rintro s pos' ⟨u, hu⟩
        exact h s pos' ⟨c :: u, by simp [hu]⟩
      simp [reSearchAux, h0, ih ht (pos + 1)]

/-- A pattern needing at least one character never matches the empty text. -/
theorem tryPattern_nil_none (r : Re) (h : 1 ≤ minLen r) : tryPattern [] r = none := by
  simp [tryPattern, reSearch, reSearchAux, mrun_nil_none r h]

/-- The cascade loop returns the empty result on empty text when every
pattern needs at least one character. -/
theorem parseLoop_nil_text (oc : List Char) :
    ∀ (pats : List Re), (∀ r ∈ pats, 1 ≤ minLen r) → parseLoop oc pats [] = [] := by
  intro pats
  induction pats with
  | nil => intro _; rfl
  | cons r ps ih =>
      intro h
      have hr := h r (by simp)
      have hps := ih (fun q hq => h q (by simp [hq]))
      have hstrip : pystrip ([] : List Char) = [] := rfl
      simp [parseLoop, hstrip, tryPattern_nil_none r hr, hps]

/-- A sequence whose first element needs a character needs a character. -/
theorem one_le_minLen_rcat_of_head (x : Re) (l : List Re) (h : 1 ≤ minLen x) :
    1 ≤ minLen (rcat (x :: l)) := by
  show 1 ≤ minLen x + minLen (rcat l)
  omega

/-- A sequence whose second element needs a character needs a character. -/
theorem one_le_minLen_rcat_of_second (x y : Re) (l : List Re) (h : 1 ≤ minLen y) :
    1 ≤ minLen (rcat (x :: y :: l)) := by
  show 1 ≤ minLen x + (minLen y + minLen (rcat l))
  omega

set_option maxHeartbeats 1000000 in
/-- Every pattern of the cascade must consume at least one character. -/
theorem patterns_minLen (oc : List Char) : ∀ r ∈ patterns oc, 1 ≤ minLen r := by
  intro r hr
  fin_cases hr <;>
    first
      | exact one_le_minLen_rcat_of_head _ _ (Nat.le_refl 1)
      | exact one_le_minLen_rcat_of_second _ _ _ (Nat.le_refl 1)

/-- Dropping while a predicate holds is idempotent. -/
theorem dropWhile_dropWhile (p : Char → Bool) (l : List Char) :
    List.dropWhile p (List.dropWhile p l) = List.dropWhile p l := by
  induction l with
  | nil => rfl
  | cons c l ih =>
      by_cases h : p c
      · simp [List.dropWhile_cons, h, ih]
      · simp [List.dropWhile_cons, h]

/-- The head surviving `dropWhile` fails the predicate. -/
theorem head?_dropWhile (p : Char → Bool) (l : List Char) :
    ∀ c, (List.dropWhile p l).head? = some c → p c = false := by
  induction l with
  | nil => intro c h; simp at h
  | cons a l ih =>
      intro c h
      by_cases ha : p a
      · exact ih c (by simpa [List.dropWhile_cons, ha] using h)
      · have hac : a = c := by simpa [List.dropWhile_cons, ha] using h
        subst hac
        simpa using ha

/-- A list whose head fails the predicate is unchanged by `dropWhile`. -/
theorem dropWhile_eq_self_of_head (p : Char → Bool) (l : List Char)
    (h : ∀ c, l.head? = some c → p c = false) : List.dropWhile p l = l := by
  cases l with
  | nil => rfl
  | cons a l => simp [List.dropWhile_cons, h a rfl]

/-- `dropWhile` produces a tail segment of its input. -/
theorem dropWhile_suffix_decomp (p : Char → Bool) (l : List Char) :
    ∃ u, l = u ++ List.dropWhile p l := by
  induction l with
  | nil => exact ⟨[], rfl⟩
  | cons a l ih =>
      by_cases h : p a
      · obtain ⟨u, hu⟩ := ih
        refine ⟨a :: u, ?_⟩
        simpa [List.dropWhile_cons, h] using hu
      · exact ⟨[], by simp [List.dropWhile_cons, h]⟩

/-- The head of a stripped string is not whitespace. -/
theorem pystrip_head (l : List Char) :
    ∀ c, (pystrip l).head? = some c → pyIsSpace c = false := by
  intro c h
  obtain ⟨u, hu⟩ := dropWhile_suffix_decomp pyIsSpace (List.dropWhile pyIsSpace l).reverse
  have hA : List.dropWhile pyIsSpace l =
      (List.dropWhile pyIsSpace (List.dropWhile pyIsSpace l).reverse).reverse ++ u.reverse := by
    have h2 := congrArg List.reverse hu
    simpa using h2
  have hhead : (List.dropWhile pyIsSpace l).head? = some c := by
    rw [hA, List.head?_append]
    unfold pystrip at h
    simp [h]
  exact head?_dropWhile pyIsSpace l c hhead

/-- Python stripping is idempotent. -/
theorem pystrip_idem (l : List Char) : pystrip (pystrip l) = pystrip l := by
  have h1 : List.dropWhile pyIsSpace (pystrip l) = pystrip l :=
    dropWhile_eq_self_of_head _ _ (pystrip_head l)
  show ((List.dropWhile pyIsSpace (pystrip l)).reverse.dropWhile pyIsSpace).reverse = pystrip l
  rw [h1]
  have h2 : (pystrip l).reverse =
      List.dropWhile pyIsSpace (List.dropWhile pyIsSpace l).reverse := by
    unfold pystrip
    simp
  rw [h2, dropWhile_dropWhile, ← h2]
  simp

/-- The cascade loop is invariant under pre-stripping: the loop itself strips
before its first pattern attempt, and stripping is idempotent. -/
theorem parseLoop_pystrip (oc : List Char) (pats : List Re) (t : List Char) :
    parseLoop oc pats (pystrip t) = parseLoop oc pats t := by
  cases pats with
  | nil => rfl
  | cons r ps => simp [parseLoop, pystrip_idem]

/-- Escaping never produces the empty string from a non-empty label. -/
theorem reEscape_ne_nil (c : Char) (x : List Char) : reEscape (c :: x) ≠ [] := by
  show (if reSpecial.contains c then ['\\', c] else [c]) ++ reEscape x ≠ []
  split <;> simp

/-- The joined escaped option string is empty exactly for the two degenerate
option lists: the empty list and the singleton empty label. -/
theorem process_options_ne_nil (O : List (List Char)) (h0 : O ≠ []) (h1 : O ≠ [[]]) :
    process_options O ≠ [] := by
  match O with
  | [] => exact absurd rfl h0
  | [x] =>
      cases x with
      | nil => exact absurd rfl h1
      | cons c x =>
          show joinBar [reEscape (c :: x)] ≠ []
          simpa [joinBar] using reEscape_ne_nil c x
  | x :: y :: rest =>
      show reEscape x ++ '|' :: joinBar (reEscape y :: rest.map reEscape) ≠ []
      simp

/-- The two cushion patterns (utils.py:239-242): `([X]):` and `([X])`.  The
source defines `cushion_patterns` but the scan loop iterates only `patterns`,
so they are dead. -/
def cushion_patterns (oc : List Char) : List Re :=
  [rcat [g1K oc, chP ':'], rcat [g1K oc]]

/-- Whatever the cascade loop returns is the empty string or a single
character of the joined option string. -/
theorem parseLoop_result_shape (oc : List Char) :
    ∀ (pats : List Re) (t : List Char),
      parseLoop oc pats t = [] ∨ ∃ c, c ∈ oc ∧ parseLoop oc pats t = [c] := by
  intro pats
  induction pats with
  | nil => intro t; exact Or.inl rfl
  | cons r ps ih =>
      intro t
      simp only [parseLoop]
      cases htry : tryPattern (pystrip t) r with
      | none => simpa only [htry] using ih (pystrip t)
      | some outputs =>
          cases hscan : scanOptions oc outputs with
          | none => simpa only [htry, hscan] using ih (pystrip t)
          | some c =>
              right
              exact ⟨c, List.mem_of_find?_eq_some hscan, by simp only [htry, hscan]⟩

/-- C1, corrected.  The inner scan iterates the characters of the joined
escaped option string, not the option labels, so the returned one-character
string is drawn from `process_options O` (which also contains the `'|'`
separators and the escaping backslashes) rather than from `O`. -/
theorem c1_theorem (t : List Char) (O : List (List Char)) (res : List Char)
    (h : parse_first_option t O = some res) :
    res = [] ∨ ∃ c, c ∈ process_options O ∧ res = [c] := by
  unfold parse_first_option at h
  by_cases hoc : (process_options O).isEmpty
  · simp [hoc] at h
  · simp [hoc] at h
    rw [← h]
    exact parseLoop_result_shape _ _ _

/-- C1 witness: a concrete run hitting the non-label outcome. -/
theorem c1_witness :
    parse_first_option "1. x|y".toList [['A'], ['B'], ['C'], ['D']] = some ['|'] ∧
    (['|'] = ([] : List Char) ∨
      ∃ c, c ∈ process_options [['A'], ['B'], ['C'], ['D']] ∧ ['|'] = [c]) :=
  ⟨by decide, c1_theorem "1. x|y".toList [['A'], ['B'], ['C'], ['D']] ['|'] (by decide)⟩

/-- C1 counterexample: on the text `1. x|y` with options `A,B,C,D`, the final
catch-all pattern captures `x|y` and the inner scan returns the separator
`'|'`, which is neither empty nor an element of the options list. -/
theorem c1_counterexample :
    parse_first_option "1. x|y".toList [['A'], ['B'], ['C'], ['D']] = some ['|'] ∧
    ['|'] ∉ [['A'], ['B'], ['C'], ['D']] ∧ (['|'] : List Char) ≠ [] :=
  ⟨by decide, by decide, by decide⟩

/-- C4 (code bug): the missing comma between utils.py:200 and utils.py:201
glues the `只有选项X是对` template onto the `故选` template, so the Chinese
evaluative phrasing is not matched by any active rule and the parser returns
the empty string instead of the label. -/
theorem c4_theorem :
    parse_first_option "只有选项A是对".toList [['A'], ['B'], ['C'], ['D']] = some [] := by
  decide

/-- C8, confirmed.  A bare label resolves to nothing because the cushion
patterns are not scanned; had the loop used `cushion_patterns`, the second
cushion would have resolved the same text to the label. -/
theorem c8_theorem :
    parse_first_option "A".toList [['A'], ['B'], ['C'], ['D']] = some [] ∧
    parseLoop (process_options [['A'], ['B'], ['C'], ['D']])
      (cushion_patterns (process_options [['A'], ['B'], ['C'], ['D']]))
      "A".toList = ['A'] :=
  ⟨by decide, by decide⟩

/-- C9, confirmed: the loop strips the text before the first pattern attempt
and stripping is idempotent, so pre-stripping the text is absorbed. -/
theorem c9_theorem (t : List Char) (O : List (List Char)) :
    parse_first_option t O = parse_first_option (pystrip t) O := by
  by_cases h : (process_options O).isEmpty <;>
    simp [parse_first_option, h, parseLoop_pystrip]

/-- C10, confirmed: the two cascade blocks are character-for-character
identical and the surrounding loops coincide, so the two parsers agree on
every input. -/
theorem c10_theorem (t : List Char) (O : List (List Char)) :
    parse_first_option_with_choices t O = parse_first_option t O := rfl

/-- Bridge between the boolean membership used by the code and propositional
membership. -/
theorem contains_label_iff (O : List (List Char)) (x : List Char) :
    O.contains x = true ↔ x ∈ O := by
  simp

/-- Unfolding equation of the capital scan on a non-empty text. -/
theorem capScan_cons (O : List (List Char)) (a : Char) (t : List Char) :
    capScan O (a :: t) =
      if (pyIsUpper a && O.contains [a]) = true then [a] else capScan O t := rfl

/-- Unfolding step of the capital scan at a character that is not a hit. -/
theorem capScan_cons_neg (O : List (List Char)) (a : Char) (t : List Char)
    (ha : ¬(pyIsUpper a = true ∧ [a] ∈ O)) : capScan O (a :: t) = capScan O t := by
  have hcond : (pyIsUpper a && O.contains [a]) = false := by
    cases hu : pyIsUpper a with
    | false => simp
    | true =>
        cases hc : O.contains [a] with
        | false => simp
        | true => exact absurd ⟨hu, (contains_label_iff O [a]).mp hc⟩ ha
  rw [capScan_cons, hcond]
  simp

/-- Unfolding step of the capital scan at a hit. -/
theorem capScan_cons_pos (O : List (List Char)) (a : Char) (t : List Char)
    (h1 : pyIsUpper a = true) (h2 : [a] ∈ O) : capScan O (a :: t) = [a] := by
  have hcond : (pyIsUpper a && O.contains [a]) = true := by
    rw [h1, Bool.true_and]
    exact (contains_label_iff O [a]).mpr h2
  rw [capScan_cons, hcond]
  simp

/-- First-hit characterization of the capital scan: it returns the first
scanned character that is uppercase and a member of the options. -/
theorem capScan_spec (O : List (List Char)) :
    ∀ t : List Char,
      (capScan O t = [] ∧ ∀ c ∈ t, ¬(pyIsUpper c = true ∧ [c] ∈ O)) ∨
      (∃ pre c suf, t = pre ++ c :: suf ∧ pyIsUpper c = true ∧ [c] ∈ O ∧
        (∀ d ∈ pre, ¬(pyIsUpper d = true ∧ [d] ∈ O)) ∧ capScan O t = [c]) := by
  intro t
  induction t with
  | nil => exact Or.inl ⟨rfl, by simp⟩
  | cons a t ih =>
      by_cases ha : pyIsUpper a = true ∧ [a] ∈ O
      · right
        exact ⟨[], a, t, rfl, ha.1, ha.2, by simp, capScan_cons_pos O a t ha.1 ha.2⟩
      · have hstep := capScan_cons_neg O a t ha
        rcases ih with ⟨h1, h2⟩ | ⟨pre, c, suf, ht, hc1, hc2, hpre, hres⟩
        · left
          refine ⟨hstep.trans h1, ?_⟩
          intro c hc
          rcases List.mem_cons.mp hc with rfl | hc
          · exact ha
          · exact h2 c hc
        · right
          refine ⟨a :: pre, c, suf, by simp [ht], hc1, hc2, ?_, hstep.trans hres⟩
          intro d hd
          rcases List.mem_cons.mp hd with rfl | hd
          · exact ha
          · exact hpre d hd

/-- The capital scan with an empty options list never finds anything. -/
theorem capScan_nil_options : ∀ t, capScan ([] : List (List Char)) t = [] := by
  intro t
  induction t with
  | nil => rfl
  | cons c rest ih => simp [capScan, ih]

/-- Correctness of `leadsWith`. -/
theorem leadsWith_iff (a : List Char) :
    ∀ b, leadsWith a b = true ↔ ∃ v, b = a ++ v := by
  induction a with
  | nil => intro b; simp [leadsWith]
  | cons x a ih =>
      intro b
      cases b with
      | nil => simp [leadsWith]
      | cons y b =>
          simp only [leadsWith, Bool.and_eq_true, beq_iff_eq, ih b, List.cons_append,
            List.cons.injEq]
          constructor
          · rintro ⟨rfl, v, rfl⟩
            exact ⟨v, rfl, rfl⟩
          · rintro ⟨v, rfl, rfl⟩
            exact ⟨rfl, v, rfl⟩

/-- Correctness of the bracket search: it fails exactly when no alternative
occurs angle-bracketed, and otherwise returns an alternative occurring
bracketed at the leftmost position admitting one. -/
theorem bsearch_spec (alts : List (List Char)) :
    ∀ t : List Char,
      (bsearch alts t = none ∧ ∀ X u v, X ∈ alts → t ≠ u ++ '<' :: (X ++ '>' :: v)) ∨
      (∃ u X v, X ∈ alts ∧ t = u ++ '<' :: (X ++ '>' :: v) ∧ bsearch alts t = some X ∧
        ∀ u' X' v', X' ∈ alts → t = u' ++ '<' :: (X' ++ '>' :: v') →
          u.length ≤ u'.length) := by
  intro t
  induction t with
  | nil =>
      left
      refine ⟨rfl, ?_⟩
      intro X u v _ h
      cases u <;> simp at h
  | cons a t ih =>
      cases hb : bracketAt alts (a :: t) with
      | some X =>
          right
          have hX : X ∈ alts := List.mem_of_find?_eq_some (by simpa [bracketAt] using hb)
          have hlw : leadsWith ('<' :: X ++ ['>']) (a :: t) = true :=
            List.find?_some (p := fun l => leadsWith ('<' :: l ++ ['>']) (a :: t))
              (by simpa [bracketAt] using hb)
          obtain ⟨v, hv⟩ := (leadsWith_iff _ _).mp hlw
          refine ⟨[], X, v, hX, ?_, ?_, ?_⟩
          · simpa [List.append_assoc] using hv
          · simp [bsearch, hb]
          · intro u' X' v' _ _
            simp
      | none =>
          have hhead : ∀ X ∈ alts, leadsWith ('<' :: X ++ ['>']) (a :: t) = false := by
            intro X hX
            have h := List.find?_eq_none.mp (by simpa [bracketAt] using hb) X hX
            simpa using h
          rcases ih with ⟨h1, h2⟩ | ⟨u, X, v, hX, ht, hres, hmin⟩
          · left
            refine ⟨by simp [bsearch, hb, h1], ?_⟩
            intro X u v hX heq
            cases u with
            | nil =>
                have : leadsWith ('<' :: X ++ ['>']) (a :: t) = true := by
                  rw [leadsWith_iff]
                  exact ⟨v, by simpa [List.append_assoc] using heq⟩
                rw [hhead X hX] at this
                exact Bool.false_ne_true this
            | cons b u' =>
                have hb2 : t = u' ++ '<' :: (X ++ '>' :: v) := by
                  simpa using congrArg List.tail heq
                exact h2 X u' v hX hb2
          · right
            refine ⟨a :: u, X, v, hX, by simp [ht], by simp [bsearch, hb, hres], ?_⟩
            intro u' X' v' hX' heq
            cases u' with
            | nil =>
                exfalso
                have : leadsWith ('<' :: X' ++ ['>']) (a :: t) = true := by
                  rw [leadsWith_iff]
                  exact ⟨v', by simpa [List.append_assoc] using heq⟩
                rw [hhead X' hX'] at this
                exact Bool.false_ne_true this
            | cons b u'' =>
                have hb2 : t = u'' ++ '<' :: (X' ++ '>' :: v') := by
                  simpa using congrArg List.tail heq
                simpa using Nat.succ_le_succ (hmin u'' X' v' hX' hb2)

set_option maxRecDepth 8192 in
/-- Whitespace characters are not uppercase. -/
theorem pyIsSpace_not_upper (c : Char) (h : pyIsSpace c = true) : pyIsUpper c = false := by
  have hm : c ∈ pySpaceChars := by simpa [pyIsSpace] using h
  fin_cases hm <;> decide

/-- Stripping an all-whitespace text yields the empty text. -/
theorem pystrip_all_ws (t : List Char) (h : ∀ c ∈ t, pyIsSpace c = true) :
    pystrip t = [] := by
  have hdrop : List.dropWhile pyIsSpace t = [] := by
    induction t with
    | nil => rfl
    | cons a t ih =>
        rw [List.dropWhile_cons, if_pos (h a (by simp))]
        exact ih (fun c hc => h c (by simp [hc]))
  simp [pystrip, hdrop]

/-- The capital scan finds nothing in all-whitespace text. -/
theorem capScan_all_ws (O : List (List Char)) (t : List Char)
    (h : ∀ c ∈ t, pyIsSpace c = true) : capScan O t = [] := by
  induction t with
  | nil => rfl
  | cons a t ih =>
      have hup : pyIsUpper a = false := pyIsSpace_not_upper a (h a (by simp))
      rw [capScan_cons, hup]
      simpa using ih (fun c hc => h c (by simp [hc]))

/-- The bracket search finds nothing in all-whitespace text: no whitespace
character is `<`. -/
theorem bsearch_all_ws (alts : List (List Char)) (t : List Char)
    (h : ∀ c ∈ t, pyIsSpace c = true) : bsearch alts t = none := by
  induction t with
  | nil => rfl
  | cons a t ih =>
      have ha : a ≠ '<' := by
        intro hlt
        subst hlt
        have := h '<' (by simp)
        simp [pyIsSpace, pySpaceChars] at this
      have hb : bracketAt alts (a :: t) = none := by
        rw [bracketAt, List.find?_eq_none]
        intro X _
        have heq : leadsWith ('<' :: (X ++ ['>'])) (a :: t) =
            (('<' : Char) == a && leadsWith (X ++ ['>']) t) := rfl
        simp [heq, Ne.symm ha]
      simp [bsearch, hb]
      exact ih (fun c hc => h c (by simp [hc]))

/-- C2, corrected.  No `InvalidInputError` exists: with an empty options list
the capital parsers return the empty string without raising, the cascade
parser raises `re.error` (modelled by `none`) because the joined option
string is empty and the class `[]` is an invalid pattern, and the bracketed
parser returns normally (its pattern degenerates to `<()>`, so it yields the
empty string exactly when the text contains `<>` and its sentinel
otherwise). -/
theorem c2_theorem (t : List Char) :
    parse_first_capital t [] = [] ∧
    parse_last_capital t [] = [] ∧
    parse_first_option t [] = none ∧
    (parse_bracketed_answer t [] = [] ↔ ∃ u v, t = u ++ '<' :: '>' :: v) ∧
    (parse_bracketed_answer t [] = [] ∨
      parse_bracketed_answer t [] = "No valid option found".toList) := by
  refine ⟨capScan_nil_options t, capScan_nil_options t.reverse, rfl, ?_, ?_⟩
  · rcases bsearch_spec [[]] t with ⟨h1, h2⟩ | ⟨u, X, v, hX, ht, hres, _⟩
    · constructor
      · intro habs
        exfalso
        have hsent : parse_bracketed_answer t [] = "No valid option found".toList := by
          simp [parse_bracketed_answer, bracketAlternatives, h1]
        rw [hsent] at habs
        exact absurd habs (by decide)
      · rintro ⟨u, v, huv⟩
        exact absurd huv (h2 [] u v (by simp))
    · have hX0 : X = [] := by simpa using hX
      subst hX0
      have hres2 : parse_bracketed_answer t [] = [] := by
        simp [parse_bracketed_answer, bracketAlternatives, hres]
      simp only [hres2, true_iff]
      exact ⟨u, v, by simpa using ht⟩
  · rcases bsearch_spec [[]] t with ⟨h1, _⟩ | ⟨u, X, v, hX, _, hres, _⟩
    · right
      simp [parse_bracketed_answer, bracketAlternatives, h1]
    · left
      have hX0 : X = [] := by simpa using hX
      subst hX0
      simp [parse_bracketed_answer, bracketAlternatives, hres]

/-- C5, confirmed (stated without the non-emptiness restriction, which the
claim assumes; the property holds for every options list).  The reverse scan
returns the rightmost character that is uppercase and a member of the
options, the forward scan the leftmost such character, and both return the
empty string when no such character exists. -/
theorem c5_theorem (t : List Char) (O : List (List Char)) :
    ((parse_last_capital t O = [] ∧ ∀ c ∈ t, ¬(pyIsUpper c = true ∧ [c] ∈ O)) ∨
      (∃ pre c suf, t = pre ++ c :: suf ∧ pyIsUpper c = true ∧ [c] ∈ O ∧
        (∀ d ∈ suf, ¬(pyIsUpper d = true ∧ [d] ∈ O)) ∧ parse_last_capital t O = [c])) ∧
    ((parse_first_capital t O = [] ∧ ∀ c ∈ t, ¬(pyIsUpper c = true ∧ [c] ∈ O)) ∨
      (∃ pre c suf, t = pre ++ c :: suf ∧ pyIsUpper c = true ∧ [c] ∈ O ∧
        (∀ d ∈ pre, ¬(pyIsUpper d = true ∧ [d] ∈ O)) ∧ parse_first_capital t O = [c])) := by
  constructor
  · rcases capScan_spec O t.reverse with ⟨h1, h2⟩ | ⟨pre, c, suf, ht, hc1, hc2, hpre, hres⟩
    · left
      refine ⟨h1, ?_⟩
      intro c hc
      exact h2 c (by simpa using hc)
    · right
      refine ⟨suf.reverse, c, pre.reverse, ?_, hc1, hc2, ?_, hres⟩
      · have h3 := congrArg List.reverse ht
        simpa [List.reverse_append] using h3
      · intro d hd
        exact hpre d (by simpa using hd)
  · rcases capScan_spec O t with h | h
    · exact Or.inl h
    · exact Or.inr h

/-- C6, confirmed: for a non-empty options list, the bracketed parser returns
a label occurring angle-bracketed at the leftmost position where any label
occurs bracketed, and the non-empty sentinel when no bracketed label
occurs. -/
theorem c6_theorem (t : List Char) (O : List (List Char)) (hO : O ≠ []) :
    (parse_bracketed_answer t O = "No valid option found".toList ∧
      ∀ X u v, X ∈ O → t ≠ u ++ '<' :: (X ++ '>' :: v)) ∨
    (∃ u X v, X ∈ O ∧ t = u ++ '<' :: (X ++ '>' :: v) ∧
      parse_bracketed_answer t O = X ∧
      ∀ u' X' v', X' ∈ O → t = u' ++ '<' :: (X' ++ '>' :: v') →
        u.length ≤ u'.length) := by
  have halts : bracketAlternatives O = O := by
    have hne : O.isEmpty = false := by
      cases O with
      | nil => exact absurd rfl hO
      | cons x xs => rfl
    simp [bracketAlternatives, hne]
  rcases bsearch_spec O t with ⟨h1, h2⟩ | ⟨u, X, v, hX, ht, hres, hmin⟩
  · left
    refine ⟨?_, h2⟩
    simp [parse_bracketed_answer, halts, h1]
  · right
    refine ⟨u, X, v, hX, ht, ?_, hmin⟩
    simp [parse_bracketed_answer, halts, hres]

/-- C6 witness: a concrete run with a bracketed label present. -/
theorem c6_witness :
    (parse_bracketed_answer "x<B>".toList [['A'], ['B']] = "No valid option found".toList ∧
      ∀ X u v, X ∈ [['A'], ['B']] → "x<B>".toList ≠ u ++ '<' :: (X ++ '>' :: v)) ∨
    (∃ u X v, X ∈ [['A'], ['B']] ∧ "x<B>".toList = u ++ '<' :: (X ++ '>' :: v) ∧
      parse_bracketed_answer "x<B>".toList [['A'], ['B']] = X ∧
      ∀ u' X' v', X' ∈ [['A'], ['B']] → "x<B>".toList = u' ++ '<' :: (X' ++ '>' :: v') →
        u.length ≤ u'.length) :=
  c6_theorem "x<B>".toList [['A'], ['B']] (by decide)

/-- C7, corrected.  On empty or pure-whitespace text every parser resolves to
"no match" — except that the options list `[""]`, although non-empty, makes
the cascade parser raise (its joined option string is empty), so that list
must be excluded alongside the empty one. -/
theorem c7_theorem (t : List Char) (O : List (List Char))
    (hws : ∀ c ∈ t, pyIsSpace c = true) (h0 : O ≠ []) (h1 : O ≠ [[]]) :
    parse_first_option t O = some [] ∧
    parse_first_capital t O = [] ∧
    parse_last_capital t O = [] ∧
    parse_bracketed_answer t O = "No valid option found".toList := by
  have hoc : (process_options O).isEmpty = false := by
    cases hpo : process_options O with
    | nil => exact absurd hpo (process_options_ne_nil O h0 h1)
    | cons c rest => rfl
  have hloop : parseLoop (process_options O) (patterns (process_options O)) t = [] := by
    rw [← parseLoop_pystrip, pystrip_all_ws t hws]
    exact parseLoop_nil_text _ _ (patterns_minLen _)
  refine ⟨?_, capScan_all_ws O t hws,
    capScan_all_ws O t.reverse (fun c hc => hws c (by simpa using hc)), ?_⟩
  · simp [parse_first_option, hoc, hloop]
  · simp [parse_bracketed_answer, bsearch_all_ws _ t hws]

/-- C7 counterexample: the options list consisting of the single empty label
is non-empty, yet on empty text the cascade parser raises `re.error` (the
joined option string is empty, so the first pattern is the invalid regex
containing the class `[]`) instead of resolving to "no match". -/
theorem c7_counterexample :
    parse_first_option [] [[]] = none ∧ ([([] : List Char)] : List (List Char)) ≠ [] :=
  ⟨rfl, by decide⟩

/-- C7 witness: a one-space text with options `["A"]`. -/
theorem c7_witness :
    parse_first_option [' '] [['A']] = some [] ∧
    parse_first_capital [' '] [['A']] = [] ∧
    parse_last_capital [' '] [['A']] = [] ∧
    parse_bracketed_answer [' '] [['A']] = "No valid option found".toList :=
  c7_theorem [' '] [['A']] (by decide) (by decide) (by decide)

/-- C2 counterexample: with the empty options list the capital parsers simply
return the empty string — no error of any kind is raised, contradicting the
claimed `InvalidInputError`. -/
theorem c2_counterexample :
    parse_first_capital ['A'] [] = [] ∧ parse_last_capital ['A'] [] = [] :=
  ⟨rfl, rfl⟩

/-- Unfolding: a sequence headed by a single-character item on non-empty
input. -/
theorem mrun_seq_tok (p : Char → Bool) (r' : Re) (x : Char) (s : List Char)
    (pos : Nat) (cps : Caps) (k : RCont) :
    mrun (Re.seq (Re.tok p) r') (x :: s) pos cps k
      = if p x = true then mrun r' s (pos + 1) cps k else none := rfl

/-- Unfolding: a sequence headed by a captured single-character item. -/
theorem mrun_seq_grpTok (i : Nat) (p : Char → Bool) (r' : Re) (x : Char)
    (s : List Char) (pos : Nat) (cps : Caps) (k : RCont) :
    mrun (Re.seq (Re.grp i (Re.tok p)) r') (x :: s) pos cps k
      = if p x = true then mrun r' s (pos + 1) ((i, pos, pos + 1) :: cps) k
        else none := rfl

/-- Unfolding: a sequence headed by an optional single-character item. -/
theorem mrun_seq_optTok (p : Char → Bool) (r' : Re) (x : Char) (s : List Char)
    (pos : Nat) (cps : Caps) (k : RCont) :
    mrun (Re.seq (Re.alt (Re.tok p) Re.eps) r') (x :: s) pos cps k
      = (if p x = true then mrun r' s (pos + 1) cps k else none).orElse
          (fun _ => mrun r' (x :: s) pos cps k) := rfl

/-- Unfolding: an optional single-character item on exhausted input. -/
theorem mrun_seq_optTok_nil (p : Char → Bool) (r' : Re) (pos : Nat) (cps : Caps)
    (k : RCont) :
    mrun (Re.seq (Re.alt (Re.tok p) Re.eps) r') [] pos cps k
      = mrun r' [] pos cps k := rfl

/-- Unfolding: a sequence headed by the `$` anchor. -/
theorem mrun_seq_eol (r' : Re) (s : List Char) (pos : Nat) (cps : Caps) (k : RCont) :
    mrun (Re.seq Re.eol r') s pos cps k
      = if s = [] ∨ s = ['\n'] then mrun r' s pos cps k else none := rfl

/-- Failure step: a head item whose predicate rejects the next character. -/
theorem mrun_seq_tok_neg (p : Char → Bool) (r' : Re) (x : Char) (s : List Char)
    (pos : Nat) (cps : Caps) (k : RCont) (hx : p x = false) :
    mrun (Re.seq (Re.tok p) r') (x :: s) pos cps k = none := by
  rw [mrun_seq_tok, hx]
  simp

/-- Search steps to the next position when the pattern fails here. -/
theorem searchAux_step (r : Re) (x : Char) (t : List Char) (pos : Nat)
    (h : mrun r (x :: t) pos [] topK = none) :
    reSearchAux r (x :: t) pos = reSearchAux r t (pos + 1) := by
  simp [reSearchAux, h]

/-- Search succeeds at the current position when the pattern matches here. -/
theorem searchAux_hit (r : Re) (x : Char) (t : List Char) (pos : Nat)
    (e : Nat) (cps : Caps) (h : mrun r (x :: t) pos [] topK = some (e, cps)) :
    reSearchAux r (x :: t) pos = some ⟨pos, e, cps⟩ := by
  simp [reSearchAux, h]

/-- A suffix of `T ++ [c]` is empty or a suffix of `T` extended by `[c]`. -/
theorem suffix_of_append_singleton (T : List Char) (c : Char) (s : List Char)
    (h : ∃ u, T ++ [c] = u ++ s) :
    s = [] ∨ ∃ s', (∃ u', T = u' ++ s') ∧ s = s' ++ [c] := by
  obtain ⟨u, hu⟩ := h
  rcases s.eq_nil_or_concat with rfl | ⟨s', a, rfl⟩
  · exact Or.inl rfl
  · right
    simp only [List.concat_eq_append] at hu
    rw [← List.append_assoc] at hu
    have h2 := List.append_inj' hu (by simp)
    have hca : c = a := by simpa using h2.2
    exact ⟨s', ⟨u, h2.1⟩, by simp [List.concat_eq_append, hca]⟩

/-- A pattern headed by a mandatory character absent from `T` and needing
more input afterwards fails everywhere on `T ++ [c]`. -/
theorem search_headTok_fail (p : Char → Bool) (r' : Re) (hmin : 1 ≤ minLen r')
    (T : List Char) (c : Char) (hT : ∀ x ∈ T, p x = false) :
    ∀ pos, reSearchAux (Re.seq (Re.tok p) r') (T ++ [c]) pos = none := by
  induction T with
  | nil =>
      intro pos
      have h1 : mrun (Re.seq (Re.tok p) r') [c] pos [] topK = none := by
        rw [show ([c] : List Char) = c :: [] from rfl, mrun_seq_tok]
        split
        · exact mrun_nil_none r' hmin _ _ _
        · rfl
      have h2 : mrun (Re.seq (Re.tok p) r') [] (pos + 1) [] topK = none :=
        mrun_nil_none _ (by show 1 ≤ 1 + minLen r'; omega) _ _ _
      rw [List.nil_append, searchAux_step _ _ _ _ h1]
      simp [reSearchAux, h2]
  | cons x T ih =>
      intro pos
      rw [List.cons_append,
        searchAux_step _ _ _ _ (mrun_seq_tok_neg _ _ _ _ _ _ _ (hT x (by simp)))]
      exact ih (fun y hy => hT y (by simp [hy])) (pos + 1)

/-- A tail beginning with a mandatory character absent from `T` and needing
more input afterwards fails on every suffix of `T` extended by `[c]`. -/
theorem mrun_litHead_fail (hP : Char → Bool) (r'' : Re) (hmin : 1 ≤ minLen r'')
    (T : List Char) (hT : ∀ x ∈ T, hP x = false) (c : Char) :
    ∀ s (pos : Nat) (cps : Caps) (k : RCont), (∃ u, T = u ++ s) →
      mrun (Re.seq (Re.tok hP) r'') (s ++ [c]) pos cps k = none := by
  intro s pos cps k hs
  cases s with
  | nil =>
      rw [List.nil_append, show ([c] : List Char) = c :: [] from rfl, mrun_seq_tok]
      split
      · exact mrun_nil_none r'' hmin _ _ _
      · rfl
  | cons x s' =>
      have hx : x ∈ T := by
        obtain ⟨u, hu⟩ := hs
        rw [hu]
        simp
      rw [List.cons_append]
      exact mrun_seq_tok_neg _ _ _ _ _ _ _ (hT x hx)

/-- The same tail preceded by an optional whitespace also fails on every
suffix of `T` extended by a non-whitespace `[c]`. -/
theorem mrun_wsOpt_litHead_fail (hP : Char → Bool) (r'' : Re) (hmin : 1 ≤ minLen r'')
    (T : List Char) (hT : ∀ x ∈ T, hP x = false) (c : Char) (hc : pyIsSpace c = false) :
    ∀ s (pos : Nat) (cps : Caps) (k : RCont), (∃ u, T = u ++ s) →
      mrun (Re.seq (Re.alt (Re.tok pyIsSpace) Re.eps) (Re.seq (Re.tok hP) r''))
        (s ++ [c]) pos cps k = none := by
  intro s pos cps k hs
  cases s with
  | nil =>
      rw [List.nil_append, show ([c] : List Char) = c :: [] from rfl, mrun_seq_optTok, hc]
      have h2 := mrun_litHead_fail hP r'' hmin T hT c [] pos cps k ⟨T, by simp⟩
      rw [List.nil_append] at h2
      simp [h2]
  | cons x s' =>
      rw [List.cons_append, mrun_seq_optTok]
      have hsuf' : ∃ u, T = u ++ s' := by
        obtain ⟨u, hu⟩ := hs
        exact ⟨u ++ [x], by simp [hu]⟩
      have hb1 := mrun_litHead_fail hP r'' hmin T hT c s' (pos + 1) cps k hsuf'
      have hb2 := mrun_litHead_fail hP r'' hmin T hT c (x :: s') pos cps k hs
      rw [List.cons_append] at hb2
      rw [hb1, hb2]
      split <;> rfl

/-- Shape of the patterns `([X])\s?是正确的` and `([X])\s?是正确答案`: a
captured option class, optional whitespace, then a literal whose first
character does not occur in `T`.  Such a pattern matches nowhere on
`T ++ [c]` for non-whitespace `c`. -/
theorem search_grpK_wsOpt_lit_fail (K hP : Char → Bool) (r'' : Re)
    (hmin : 1 ≤ minLen r'') (T : List Char) (hT : ∀ x ∈ T, hP x = false)
    (c : Char) (hc : pyIsSpace c = false) :
    ∀ pos, reSearchAux (Re.seq (Re.grp 1 (Re.tok K))
      (Re.seq (Re.alt (Re.tok pyIsSpace) Re.eps) (Re.seq (Re.tok hP) r'')))
      (T ++ [c]) pos = none := by
  intro pos
  apply reSearchAux_none
  intro s pos' hsuf
  rcases suffix_of_append_singleton T c s hsuf with rfl | ⟨s', hs', rfl⟩
  · apply mrun_nil_none
    show 1 ≤ 1 + (0 + (1 + minLen r''))
    omega
  · cases s' with
    | nil =>
        rw [List.nil_append, show ([c] : List Char) = c :: [] from rfl, mrun_seq_grpTok]
        split
        · apply mrun_nil_none
          show 1 ≤ 0 + (1 + minLen r'')
          omega
        · rfl
    | cons x s'' =>
        rw [List.cons_append, mrun_seq_grpTok]
        have hsuf'' : ∃ u, T = u ++ s'' := by
          obtain ⟨u, hu⟩ := hs'
          exact ⟨u ++ [x], by simp [hu]⟩
        rw [mrun_wsOpt_litHead_fail hP r'' hmin T hT c hc s'' (pos' + 1) _ _ hsuf'']
        split <;> rfl

/-- Unfolding for `Option.orElse` on a failed first branch. -/
theorem optNoneOrElse (f : Unit → Option (Nat × Caps)) :
    (none : Option (Nat × Caps)).orElse f = f () := rfl

/-- Shape of the pattern `[\s，：:,]([X])[。，,\.]?$`: when at least two more
characters follow the captured one and the next is neither closing
punctuation nor a final newline, the match fails regardless of the class. -/
theorem mrun_preK_punct_eol_fail (preP K punct : Char → Bool) (x y z : Char)
    (rest : List Char) (pos : Nat) (cps : Caps) (k : RCont)
    (hx : preP x = true) (hz1 : punct z = false) (hz2 : z ≠ '\n') :
    mrun (Re.seq (Re.tok preP) (Re.seq (Re.grp 1 (Re.tok K))
      (Re.seq (Re.alt (Re.tok punct) Re.eps) (Re.seq Re.eol Re.eps))))
      (x :: y :: z :: rest) pos cps k = none := by
  rw [mrun_seq_tok, if_pos hx, mrun_seq_grpTok]
  cases hKy : K y with
  | false => simp [hKy]
  | true =>
      rw [if_pos rfl, mrun_seq_optTok, hz1]
      have heol : mrun (Re.seq Re.eol Re.eps) (z :: rest) (pos + 1 + 1)
          ((1, pos + 1, pos + 1 + 1) :: cps) k = none := by
        rw [mrun_seq_eol, if_neg]
        rintro (h | h)
        · exact List.cons_ne_nil z rest h
        · injection h with hz' _
          exact hz2 hz'
      simp [heol]

/-- The same pattern matches when the captured class character is the last
character of the text. -/
theorem mrun_preK_punct_eol_hit (preP K punct : Char → Bool) (x y : Char)
    (pos : Nat) (hx : preP x = true) (hy : K y = true) :
    mrun (Re.seq (Re.tok preP) (Re.seq (Re.grp 1 (Re.tok K))
      (Re.seq (Re.alt (Re.tok punct) Re.eps) (Re.seq Re.eol Re.eps))))
      [x, y] pos [] topK = some (pos + 1 + 1, [(1, pos + 1, pos + 1 + 1)]) := by
  rw [show ([x, y] : List Char) = x :: y :: [] from rfl, mrun_seq_tok, if_pos hx,
    mrun_seq_grpTok, if_pos hy, mrun_seq_optTok_nil, mrun_seq_eol,
    if_pos (Or.inl rfl)]
  rfl

/-- A sequence whose third element needs a character needs a character. -/
theorem one_le_minLen_rcat_of_third (x y z : Re) (l : List Re) (h : 1 ≤ minLen z) :
    1 ≤ minLen (rcat (x :: y :: z :: l)) := by
  show 1 ≤ minLen x + (minLen y + (minLen z + minLen (rcat l)))
  omega

/-- Class parsing steps over an unescaped non-backslash character. -/
theorem classChars_cons_ne (d : Char) (hd : d ≠ '\\') (L : List Char) :
    classChars (d :: L) = d :: classChars L := by
  cases L <;> simp [classChars, hd]

/-- Class parsing distributes over an escaped block followed by the rest. -/
theorem classChars_esc_append (x : List Char) (rest : List Char) :
    classChars (reEscape x ++ rest) = classChars (reEscape x) ++ classChars rest := by
  induction x with
  | nil => simp [reEscape, classChars]
  | cons d x ih =>
      show classChars (((if reSpecial.contains d then ['\\', d] else [d]) ++ reEscape x) ++ rest)
        = classChars ((if reSpecial.contains d then ['\\', d] else [d]) ++ reEscape x) ++ classChars rest
      by_cases hd : reSpecial.contains d
      · rw [if_pos hd]
        show classChars ('\\' :: d :: (reEscape x ++ rest))
          = classChars ('\\' :: d :: reEscape x) ++ classChars rest
        show d :: classChars (reEscape x ++ rest) = (d :: classChars (reEscape x)) ++ classChars rest
        simp [ih]
      · rw [if_neg hd]
        have hdne : d ≠ '\\' := by
          intro h
          subst h
          exact hd (by decide)
        show classChars (d :: (reEscape x ++ rest)) = classChars (d :: reEscape x) ++ classChars rest
        rw [classChars_cons_ne d hdne, classChars_cons_ne d hdne]
        simp [ih]

/-- Every character of a label occurs in the characters of the class built
from the joined escaped options. -/
theorem mem_classChars_of_label (O : List (List Char)) (c : Char) (h : [c] ∈ O) :
    c ∈ classChars (process_options O) := by
  induction O with
  | nil => simp at h
  | cons x rest ih =>
      cases rest with
      | nil =>
          have hx : [c] = x := by simpa using h
          subst hx
          show c ∈ classChars (joinBar [reEscape [c]])
          show c ∈ classChars (reEscape [c])
          by_cases hc : reSpecial.contains c
          · show c ∈ classChars ((if reSpecial.contains c then ['\\', c] else [c]) ++ [])
            rw [if_pos hc]
            simp [classChars]
          · show c ∈ classChars ((if reSpecial.contains c then ['\\', c] else [c]) ++ [])
            rw [if_neg hc]
            have : c ≠ '\\' := by
              intro hcc
              subst hcc
              exact hc (by decide)
            simp [classChars_cons_ne c this]
      | cons y rest' =>
          show c ∈ classChars (reEscape x ++ '|' :: joinBar (reEscape y :: rest'.map reEscape))
          rw [classChars_esc_append, classChars_cons_ne '|' (by decide)]
          rcases List.mem_cons.mp h with hcx | hcr
          · subst hcx
            apply List.mem_append_left
            by_cases hc : reSpecial.contains c
            · show c ∈ classChars (((if reSpecial.contains c then ['\\', c] else [c])) ++ [])
              rw [if_pos hc]
              simp [classChars]
            · show c ∈ classChars (((if reSpecial.contains c then ['\\', c] else [c])) ++ [])
              rw [if_neg hc]
              have : c ≠ '\\' := by
                intro hcc
                subst hcc
                exact hc (by decide)
              simp [classChars_cons_ne c this]
          · apply List.mem_append_right
            apply List.mem_cons_of_mem
            exact ih hcr

/-- The inner scan on a one-character candidate returns exactly that
character when it occurs in the joined option string. -/
theorem scanOptions_single (oc : List Char) (c : Char) (hmem : c ∈ oc) :
    scanOptions oc [c] = some c := by
  induction oc with
  | nil => simp at hmem
  | cons a oc ih =>
      by_cases hac : a = c
      · subst hac
        show List.find? (fun i => [a].contains i) (a :: oc) = some a
        rw [List.find?_cons_of_pos]
        simp
      · show List.find? (fun i => [c].contains i) (a :: oc) = some c
        rw [List.find?_cons_of_neg]
        · have hco : c ∈ oc := by
            rcases List.mem_cons.mp hmem with h | h
            · exact absurd h.symm hac
            · exact h
          exact ih hco
        · simp [hac]

/-- Stripping is the identity on a text with non-whitespace edges. -/
theorem pystrip_no_edge_ws (a : Char) (mid : List Char) (c : Char)
    (ha : pyIsSpace a = false) (hc : pyIsSpace c = false) :
    pystrip (a :: (mid ++ [c])) = a :: (mid ++ [c]) := by
  unfold pystrip
  rw [List.dropWhile_cons, if_neg (by simp [ha])]
  rw [show (a :: (mid ++ [c])).reverse = c :: (mid.reverse ++ [a]) from by simp]
  rw [List.dropWhile_cons, if_neg (by simp [hc])]
  simp

/-- The search skips over a block of characters that all fail the mandatory
head predicate of the pattern. -/
theorem searchAux_steps_plain (p : Char → Bool) (r' : Re) :
    ∀ (pre : List Char) (t : List Char) (pos : Nat),
      (∀ x ∈ pre, p x = false) →
      reSearchAux (Re.seq (Re.tok p) r') (pre ++ t) pos
        = reSearchAux (Re.seq (Re.tok p) r') t (pos + pre.length) := by
  intro pre
  induction pre with
  | nil =>
      intro t pos _
      simp
  | cons x pre ih =>
      intro t pos hpre
      rw [List.cons_append,
        searchAux_step _ _ _ _ (mrun_seq_tok_neg _ _ _ _ _ _ _ (hpre x (by simp))),
        ih t (pos + 1) (fun y hy => hpre y (by simp [hy]))]
      congr 1
      simp
      omega

/-- The pattern `[\s，：:,]([X])[。，,\.]?$` first matches the text
`The answer is ` ++ `[c]` at the final space, capturing `c`, whenever `c`
belongs to the option class: every earlier start position fails. -/
theorem search_P27_hit (oc : List Char) (c : Char) (hK : clsK oc c = true) :
    reSearch (rcat [wsCls ['，', '：', ':', ','], g1K oc,
        optR (clsP ['。', '，', ',', '.']), Re.eol])
      ("The answer is ".toList ++ [c]) = some ⟨13, 15, [(1, 14, 15)]⟩ := by
  unfold reSearch
  rw [show rcat [wsCls ['，', '：', ':', ','], g1K oc,
        optR (clsP ['。', '，', ',', '.']), Re.eol]
      = Re.seq (Re.tok (fun x => pyIsSpace x || ['，', '：', ':', ','].contains x))
          (Re.seq (Re.grp 1 (Re.tok (clsK oc)))
            (Re.seq (Re.alt (Re.tok (fun x => ['。', '，', ',', '.'].contains x)) Re.eps)
              (Re.seq Re.eol Re.eps))) from rfl]
  rw [show ("The answer is ".toList ++ [c])
      = ['T', 'h', 'e'] ++ (" answer is ".toList ++ [c]) from rfl]
  rw [searchAux_steps_plain _ _ ['T', 'h', 'e'] _ 0 (by decide)]
  rw [show (" answer is ".toList ++ [c])
      = ' ' :: 'a' :: 'n' :: ("swer is ".toList ++ [c]) from rfl]
  rw [searchAux_step _ _ _ _
    (mrun_preK_punct_eol_fail _ _ _ _ _ _ _ _ _ _ (by decide) (by decide) (by decide))]
  rw [show ('a' :: 'n' :: ("swer is ".toList ++ [c]))
      = "answer".toList ++ (" is ".toList ++ [c]) from rfl]
  rw [searchAux_steps_plain _ _ "answer".toList _ _ (by decide)]
  rw [show (" is ".toList ++ [c]) = ' ' :: 'i' :: 's' :: (" ".toList ++ [c]) from rfl]
  rw [searchAux_step _ _ _ _
    (mrun_preK_punct_eol_fail _ _ _ _ _ _ _ _ _ _ (by decide) (by decide) (by decide))]
  rw [show ('i' :: 's' :: (" ".toList ++ [c])) = "is".toList ++ ([' '] ++ [c]) from rfl]
  rw [searchAux_steps_plain _ _ "is".toList _ _ (by decide)]
  rw [show (([' '] : List Char) ++ [c]) = ' ' :: [c] from rfl]
  rw [searchAux_hit _ _ _ _ _ _ (mrun_preK_punct_eol_hit _ _ _ ' ' c _ (by decide) hK)]
  rfl

/-- On the text `The answer is ` ++ `[c]`, the matching rule produces the
candidate substring `[c]`. -/
theorem tryPattern_P27 (oc : List Char) (c : Char) (hK : clsK oc c = true) :
    tryPattern ("The answer is ".toList ++ [c])
      (rcat [wsCls ['，', '：', ':', ','], g1K oc,
        optR (clsP ['。', '，', ',', '.']), Re.eol]) = some [c] := by
  unfold tryPattern
  rw [search_P27_hit oc c hK]
  rfl

/-- Loop step: a pattern that fails is skipped. -/
theorem parseLoop_cons_skip (oc : List Char) (r : Re) (ps : List Re) (t : List Char)
    (hstrip : pystrip t = t) (h : tryPattern t r = none) :
    parseLoop oc (r :: ps) t = parseLoop oc ps t := by
  simp only [parseLoop, hstrip, h]

/-- Loop step: a matching pattern whose candidate contains an option
character resolves the text. -/
theorem parseLoop_cons_hit (oc : List Char) (r : Re) (ps : List Re) (t : List Char)
    (out : List Char) (ch : Char) (hstrip : pystrip t = t)
    (h : tryPattern t r = some out) (hscan : scanOptions oc out = some ch) :
    parseLoop oc (r :: ps) t = [ch] := by
  simp only [parseLoop, hstrip, h, hscan]

/-- Every character of a label occurs in the joined escaped option string. -/
theorem mem_process_options_of_label (O : List (List Char)) (c : Char) (h : [c] ∈ O) :
    c ∈ process_options O := by
  induction O with
  | nil => simp at h
  | cons x rest ih =>
      cases rest with
      | nil =>
          have hx : [c] = x := by simpa using h
          subst hx
          show c ∈ (if reSpecial.contains c then ['\\', c] else [c]) ++ []
          split <;> simp
      | cons y rest' =>
          show c ∈ reEscape x ++ '|' :: joinBar (reEscape y :: rest'.map reEscape)
          rcases List.mem_cons.mp h with hcx | hcr
          · apply List.mem_append_left
            rw [← hcx]
            show c ∈ (if reSpecial.contains c then ['\\', c] else [c]) ++ []
            split <;> simp
          · apply List.mem_append_right
            exact List.mem_cons_of_mem _ (ih hcr)

set_option maxHeartbeats 4000000 in
/-- C3, corrected.  For distinct single-character non-whitespace labels the
identity holds: rules 1 through 26 of the cascade all fail on the text
(rules 1-20 and 23-26 need a Chinese literal that cannot complete, rules
21-22 need the literal `是` followed by more input), rule 27
(`[\s，：:,]([X])[。，,\.]?$`) then captures the label after the final space,
and the inner scan returns it.  For multi-character labels the claim fails:
the capture classes hold single characters only, so only a one-character
prefix-like fragment of the label can be returned (see the
counterexample). -/
theorem c3_theorem (O : List (List Char)) (hne : O ≠ [])
    (hsingle : ∀ l ∈ O, l.length = 1 ∧ ∀ ch ∈ l, pyIsSpace ch = false)
    (hdist : O.Pairwise (· ≠ ·)) (L : List Char) (hL : L ∈ O) :
    parse_first_option ("The answer is ".toList ++ L) O = some L := by
  obtain ⟨hlen, hnws⟩ := hsingle L hL
  obtain ⟨c, rfl⟩ : ∃ c, L = [c] := by
    cases L with
    | nil => simp at hlen
    | cons a l =>
        cases l with
        | nil => exact ⟨a, rfl⟩
        | cons b l' => simp at hlen
  have hc : pyIsSpace c = false := hnws c (by simp)
  have hO1 : O ≠ [[]] := by
    intro h
    subst h
    have h1 := (hsingle [] (by simp)).1
    simp at h1
  have hocne : (process_options O).isEmpty = false := by
    cases hpo : process_options O with
    | nil => exact absurd hpo (process_options_ne_nil O hne hO1)
    | cons a l => rfl
  have hKc : clsK (process_options O) c = true := by
    have h := mem_classChars_of_label O c hL
    simpa [clsK] using h
  have hmemoc : c ∈ process_options O := mem_process_options_of_label O c hL
  have hstrip : pystrip ("The answer is ".toList ++ [c])
      = "The answer is ".toList ++ [c] :=
    pystrip_no_edge_ws 'T' "he answer is ".toList c (by decide) hc
  have hskip : ∀ (p : Char → Bool) (r' : Re), 1 ≤ minLen r' →
      (∀ x ∈ "The answer is ".toList, p x = false) →
      tryPattern ("The answer is ".toList ++ [c]) (Re.seq (Re.tok p) r') = none := by
    intro p r' hm hT
    unfold tryPattern reSearch
    rw [search_headTok_fail p r' hm _ c hT 0]
  have hskip21 : ∀ (hP : Char → Bool) (r'' : Re), 1 ≤ minLen r'' →
      (∀ x ∈ "The answer is ".toList, hP x = false) →
      tryPattern ("The answer is ".toList ++ [c])
        (Re.seq (Re.grp 1 (Re.tok (clsK (process_options O))))
          (Re.seq (Re.alt (Re.tok pyIsSpace) Re.eps)
            (Re.seq (Re.tok hP) r''))) = none := by
    intro hP r'' hm hT
    unfold tryPattern reSearch
    rw [search_grpK_wsOpt_lit_fail _ hP r'' hm _ hT c hc 0]
  have hmain : parseLoop (process_options O) (patterns (process_options O))
      ("The answer is ".toList ++ [c]) = [c] := by
    refine Eq.trans (parseLoop_cons_skip _ _ _ _ hstrip
      (hskip _ _ (one_le_minLen_rcat_of_head _ _ (Nat.le_refl 1)) (by decide))) ?_
    refine Eq.trans (parseLoop_cons_skip _ _ _ _ hstrip
      (hskip _ _ (one_le_minLen_rcat_of_head _ _ (Nat.le_refl 1)) (by decide))) ?_
    refine Eq.trans (parseLoop_cons_skip _ _ _ _ hstrip
      (hskip _ _ (one_le_minLen_rcat_of_head _ _ (Nat.le_refl 1)) (by decide))) ?_
    refine Eq.trans (parseLoop_cons_skip _ _ _ _ hstrip
      (hskip _ _ (one_le_minLen_rcat_of_head _ _ (Nat.le_refl 1)) (by decide))) ?_
    refine Eq.trans (parseLoop_cons_skip _ _ _ _ hstrip
      (hskip _ _ (one_le_minLen_rcat_of_head _ _ (Nat.le_refl 1)) (by decide))) ?_
    refine Eq.trans (parseLoop_cons_skip _ _ _ _ hstrip
      (hskip _ _ (one_le_minLen_rcat_of_head _ _ (Nat.le_refl 1)) (by decide))) ?_
    refine Eq.trans (parseLoop_cons_skip _ _ _ _ hstrip
      (hskip _ _ (one_le_minLen_rcat_of_head _ _ (Nat.le_refl 1)) (by decide))) ?_
    refine Eq.trans (parseLoop_cons_skip _ _ _ _ hstrip
      (hskip _ _ (one_le_minLen_rcat_of_head _ _ (Nat.le_refl 1)) (by decide))) ?_
    refine Eq.trans (parseLoop_cons_skip _ _ _ _ hstrip
      (hskip _ _ (one_le_minLen_rcat_of_head _ _ (Nat.le_refl 1)) (by decide))) ?_
    refine Eq.trans (parseLoop_cons_skip _ _ _ _ hstrip
      (hskip _ _ (one_le_minLen_rcat_of_head _ _ (Nat.le_refl 1)) (by decide))) ?_
    refine Eq.trans (parseLoop_cons_skip _ _ _ _ hstrip
      (hskip _ _ (one_le_minLen_rcat_of_head _ _ (Nat.le_refl 1)) (by decide))) ?_
    refine Eq.trans (parseLoop_cons_skip _ _ _ _ hstrip
      (hskip _ _ (one_le_minLen_rcat_of_head _ _ (Nat.le_refl 1)) (by decide))) ?_
    refine Eq.trans (parseLoop_cons_skip _ _ _ _ hstrip
      (hskip _ _ (one_le_minLen_rcat_of_third _ _ _ _ (Nat.le_refl 1)) (by decide))) ?_
    refine Eq.trans (parseLoop_cons_skip _ _ _ _ hstrip
      (hskip _ _ (one_le_minLen_rcat_of_third _ _ _ _ (Nat.le_refl 1)) (by decide))) ?_
    refine Eq.trans (parseLoop_cons_skip _ _ _ _ hstrip
      (hskip _ _ (one_le_minLen_rcat_of_head _ _ (Nat.le_refl 1)) (by decide))) ?_
    refine Eq.trans (parseLoop_cons_skip _ _ _ _ hstrip
      (hskip _ _ (one_le_minLen_rcat_of_head _ _ (Nat.le_refl 1)) (by decide))) ?_
    refine Eq.trans (parseLoop_cons_skip _ _ _ _ hstrip
      (hskip _ _ (one_le_minLen_rcat_of_head _ _ (Nat.le_refl 1)) (by decide))) ?_
    refine Eq.trans (parseLoop_cons_skip _ _ _ _ hstrip
      (hskip _ _ (one_le_minLen_rcat_of_head _ _ (Nat.le_refl 1)) (by decide))) ?_
    refine Eq.trans (parseLoop_cons_skip _ _ _ _ hstrip
      (hskip _ _ (one_le_minLen_rcat_of_head _ _ (Nat.le_refl 1)) (by decide))) ?_
    refine Eq.trans (parseLoop_cons_skip _ _ _ _ hstrip
      (hskip _ _ (one_le_minLen_rcat_of_head _ _ (Nat.le_refl 1)) (by decide))) ?_
    refine Eq.trans (parseLoop_cons_skip _ _ _ _ hstrip
      (hskip21 _ _ (one_le_minLen_rcat_of_head _ _ (Nat.le_refl 1)) (by decide))) ?_
    refine Eq.trans (parseLoop_cons_skip _ _ _ _ hstrip
      (hskip21 _ _ (one_le_minLen_rcat_of_head _ _ (Nat.le_refl 1)) (by decide))) ?_
    refine Eq.trans (parseLoop_cons_skip _ _ _ _ hstrip
      (hskip _ _ (one_le_minLen_rcat_of_head _ _ (Nat.le_refl 1)) (by decide))) ?_
    refine Eq.trans (parseLoop_cons_skip _ _ _ _ hstrip
      (hskip _ _ (one_le_minLen_rcat_of_head _ _ (Nat.le_refl 1)) (by decide))) ?_
    refine Eq.trans (parseLoop_cons_skip _ _ _ _ hstrip
      (hskip _ _ (one_le_minLen_rcat_of_head _ _ (Nat.le_refl 1)) (by decide))) ?_
    refine Eq.trans (parseLoop_cons_skip _ _ _ _ hstrip
      (hskip _ _ (one_le_minLen_rcat_of_head _ _ (Nat.le_refl 1)) (by decide))) ?_
    exact parseLoop_cons_hit _ _ _ _ [c] c hstrip
      (tryPattern_P27 _ c hKc) (scanOptions_single _ c hmemoc)
  show (if (process_options O).isEmpty = true then none
    else some (parseLoop (process_options O) (patterns (process_options O))
      ("The answer is ".toList ++ [c]))) = some [c]
  rw [hocne, hmain]
  simp

/-- C3 counterexample: for the valid one-label OptionSet `["AB"]`, the text
`The answer is AB` resolves to `"A"`, not to the label `"AB"`: the rule
classes match single characters, and the inner scan returns the first
character of the joined option string contained in the candidate. -/
theorem c3_counterexample :
    parse_first_option ("The answer is ".toList ++ "AB".toList) ["AB".toList]
        = some ['A'] ∧
    (['A'] : List Char) ≠ "AB".toList ∧
    "AB".toList ∈ (["AB".toList] : List (List Char)) ∧
    (["AB".toList] : List (List Char)) ≠ [] ∧
    (["AB".toList] : List (List Char)).Pairwise (· ≠ ·) :=
  ⟨by decide, by decide, by decide, by decide, by decide⟩

/-- C3 witness: a concrete two-label single-character OptionSet. -/
theorem c3_witness :
    (["B".toList, "A".toList] : List (List Char)) ≠ [] ∧
    (∀ l ∈ (["B".toList, "A".toList] : List (List Char)),
      l.length = 1 ∧ ∀ ch ∈ l, pyIsSpace ch = false) ∧
    (["B".toList, "A".toList] : List (List Char)).Pairwise (· ≠ ·) ∧
    parse_first_option ("The answer is ".toList ++ "A".toList)
      ["B".toList, "A".toList] = some "A".toList :=
  ⟨by decide, by decide, by decide,
    c3_theorem ["B".toList, "A".toList] (by decide) (by decide) (by decide)
      "A".toList (by decide)⟩
